import Mathlib

/-!
Verification of the Susan knowledge-cataloging backend.

This file shallowly embeds the algorithms of the repository in Lean:
the duplicate checker (`similarity`, `areSimilar`, `findDuplicates`),
the consolidator (`mergeTitles`), the phase assigner
(`calculatePhaseMatch`, `findBestPhase`), the extraction router
(`processStagingItems`, `checkDuplicate`, `insertToTable`,
`markStaging`), the archiver (clean/archive selection and
`extractSummary` topic extraction), and the storage approve-purge
endpoint.  JavaScript numbers are modelled as `ℚ` (all arithmetic in
these functions is exact on small rationals), JS strings as `String`,
timestamps as integers (milliseconds; ISO-8601 string comparison is
order-isomorphic to numeric comparison for a fixed format), and
fallible store calls as explicit error parameters.
-/

namespace Susan

/-! ### JS string primitives -/

/-- JS whitespace characters relevant here (`\s` for the inputs we model). -/
def jsIsSpace (c : Char) : Bool :=
  c = ' ' || c = '\t' || c = '\n' || c = '\r'

/-- `String.prototype.toLowerCase` (ASCII-faithful). -/
def jsToLower (s : String) : String :=
  String.mk (s.toList.map Char.toLower)

/-- `String.prototype.trim`. -/
def jsTrim (s : String) : String :=
  String.mk (((s.toList.dropWhile jsIsSpace).reverse.dropWhile jsIsSpace).reverse)

/-- JS `\w` word characters: `[A-Za-z0-9_]`. -/
def jsIsWordChar (c : Char) : Bool :=
  c.isAlpha || c.isDigit || c = '_'

/-- Split on whitespace runs, dropping empty fragments (the behaviour of
`split(/\s+/)` composed with the later length filter). -/
def splitWs (s : String) : List String :=
  ((s.toList.splitOnP jsIsSpace).map String.mk).filter (fun w => w ≠ "")

/-! ### Duplicate checker: `levenshteinDistance`, `similarity`,
`extractTerms`, `areSimilar` (services/duplicateChecker) -/

/-- One cell-by-cell pass of the Levenshtein DP: given `diag = dp[i-1][j-1]`,
`left = dp[i][j-1]` and the remainder `up :: rest` of row `i-1` from column
`j`, produce row `i` from column `j` on. -/
def levStep (c1 : Char) : List Char → Nat → Nat → List Nat → List Nat
  | [], _, _, _ => []
  | _ :: _, _, _, [] => []
  | c2 :: cs, diag, left, up :: rest =>
    let v := if c1 = c2 then diag else 1 + min up (min left diag)
    v :: levStep c1 cs up v rest

/-- Row `i` of the DP table from row `i-1` (`dp[i][0] = i`). -/
def levRow (c1 : Char) (s2 : List Char) (prev : List Nat) (i : Nat) : List Nat :=
  i :: levStep c1 s2 (prev.headD 0) i (prev.tail)

/-- `levenshteinDistance(str1, str2)`: the standard DP, row by row;
`dp[0][j] = j`, `dp[i][0] = i`, `dp[i][j]` by the match/min recurrence. -/
def levenshteinDistance (str1 str2 : String) : Nat :=
  let s1 := str1.toList
  let s2 := str2.toList
  let row0 := List.range (s2.length + 1)
  let final := (s1.foldl (fun (st : List Nat × Nat) c1 =>
    (levRow c1 s2 st.1 (st.2 + 1), st.2 + 1)) (row0, 0)).1
  final.getLastD 0

/-- `similarity(str1, str2)`.  Note the JS falsy guard: an *empty* string
argument short-circuits to 0 before the `maxLen === 0` branch can run. -/
def similarity (str1 str2 : String) : ℚ :=
  if str1 = "" || str2 = "" then 0
  else
    let s1 := jsTrim (jsToLower str1)
    let s2 := jsTrim (jsToLower str2)
    if s1 = s2 then 1
    else
      let maxLen := max s1.length s2.length
      if maxLen = 0 then 1
      else 1 - (levenshteinDistance s1 s2 : ℚ) / (maxLen : ℚ)

/-- `STOP_WORDS`. -/
def STOP_WORDS : List String :=
  ["the", "and", "for", "with", "this", "that", "from", "have", "has",
   "been", "are", "was", "were", "will", "would", "should", "could",
   "can", "may", "might", "must", "shall", "not", "but", "its", "also"]

/-- `extractTerms(text)`: lowercase, strip non-word non-space characters,
split on whitespace, keep words longer than 2 that are not stop words. -/
def extractTerms (text : String) : List String :=
  let cleaned := String.mk ((jsToLower text).toList.filter
    (fun c => jsIsWordChar c || jsIsSpace c))
  (splitWs cleaned).filter (fun w => 2 < w.length && !(STOP_WORDS.contains w))

/-- The record shape `findDuplicates` selects:
`id, title, project_id, status, created_at`. -/
structure Item where
  id : Nat
  title : String
  project_id : String
  status : String
  created_at : Nat
  deriving DecidableEq, Repr

/-- `SIMILARITY_THRESHOLD`. -/
def SIMILARITY_THRESHOLD : ℚ := 7 / 10

/-- `areSimilar(item1, item2)`: 0 across projects, otherwise
`0.6 * titleSimilarity + 0.4 * termOverlap`. -/
def areSimilar (item1 item2 : Item) : ℚ :=
  if item1.project_id ≠ item2.project_id then 0
  else
    let titleSim := similarity item1.title item2.title
    let terms1 := extractTerms item1.title
    let terms2 := extractTerms item2.title
    let commonTerms := terms1.filter (fun t => terms2.contains t)
    let termOverlap := (commonTerms.length : ℚ) /
      (max (max terms1.length terms2.length) 1 : ℚ)
    titleSim * (6 / 10) + termOverlap * (4 / 10)

/-- Inner loop of `findDuplicates`: scan the later items, skip ids already
used, add any item whose similarity with the group's first member (`seed`,
the loop's `items[i]`) reaches the threshold; return the collected tail of
the group together with the grown used-set. -/
def collectGroup (seed : Item) : List Item → List Nat → List Item × List Nat
  | [], used => ([], used)
  | x :: xs, used =>
    if used.contains x.id then collectGroup seed xs used
    else if SIMILARITY_THRESHOLD ≤ areSimilar seed x then
      let (g, u) := collectGroup seed xs (x.id :: used)
      (x :: g, u)
    else collectGroup seed xs used

/-- Outer loop of `findDuplicates`: each not-yet-used item seeds a group,
the inner scan collects later similar items, and only groups with more
than one member are reported. -/
def buildGroups : List Item → List Nat → List (List Item)
  | [], _ => []
  | x :: xs, used =>
    if used.contains x.id then buildGroups xs used
    else
      let (g, u) := collectGroup x xs (x.id :: used)
      if g.isEmpty then buildGroups xs u
      else (x :: g) :: buildGroups xs u

/-- The `groups` component of `findDuplicates` applied to the fetched,
`created_at`-ascending item list. -/
def findDuplicatesGroups (items : List Item) : List (List Item) :=
  buildGroups items []

/-- Specification-shaped grouping: repeatedly take the first unclaimed
record as seed, claim exactly the later records whose pairwise score with
that seed reaches the threshold, and report the group when it has at
least two members. -/
def groupsSpec : List Item → List (List Item)
  | [] => []
  | x :: xs =>
    let g := xs.filter (fun y => decide (SIMILARITY_THRESHOLD ≤ areSimilar x y))
    let rest := xs.filter (fun y => !decide (SIMILARITY_THRESHOLD ≤ areSimilar x y))
    (if g.isEmpty then [] else [x :: g]) ++ groupsSpec rest
termination_by l => l.length
decreasing_by
  simp only [List.length_cons]
  exact Nat.lt_succ_of_le (List.length_filter_le _ _)

/-- Members of a list with duplicate-free ids are determined by their id. -/
theorem item_id_inj {l : List Item} (h : (l.map Item.id).Nodup)
    {y z : Item} (hy : y ∈ l) (hz : z ∈ l) (hid : y.id = z.id) : y = z :=
  List.inj_on_of_nodup_map h hy hz hid

/-- The tail predicate a seed's inner scan selects: not yet claimed and
similar to the seed. -/
def claims (seed : Item) (used : List Nat) (y : Item) : Bool :=
  !decide (y.id ∈ used) && decide (SIMILARITY_THRESHOLD ≤ areSimilar seed y)

/-- `collectGroup` collects exactly the unclaimed similar items, in order,
and returns the used-set grown by their ids (ids assumed duplicate-free). -/
theorem collectGroup_eq (seed : Item) :
    ∀ (l : List Item) (used : List Nat), (l.map Item.id).Nodup →
    collectGroup seed l used =
      (l.filter (claims seed used),
       ((l.filter (claims seed used)).map Item.id).reverse ++ used)
  | [], used, _ => by simp [collectGroup]
  | x :: xs, used, h => by
    have hxs : (xs.map Item.id).Nodup := (List.nodup_cons.mp h).2
    have hxid : x.id ∉ xs.map Item.id := (List.nodup_cons.mp h).1
    have hne : ∀ y ∈ xs, y.id ≠ x.id :=
      fun y hy hEq => hxid (hEq ▸ List.mem_map_of_mem Item.id hy)
    rw [collectGroup]
    by_cases hu : x.id ∈ used
    · rw [if_pos (by simpa using hu), collectGroup_eq seed xs used hxs]
      have hskip : (x :: xs).filter (claims seed used) =
          xs.filter (claims seed used) := by
        simp [List.filter_cons, claims, hu]
      rw [hskip]
    · rw [if_neg (by simpa using hu)]
      by_cases hs : SIMILARITY_THRESHOLD ≤ areSimilar seed x
      · rw [if_pos hs, collectGroup_eq seed xs (x.id :: used) hxs]
        have hcongr : xs.filter (claims seed (x.id :: used)) =
            xs.filter (claims seed used) := by
          apply List.filter_congr
          intro y hy
          simp [claims, List.mem_cons, hne y hy]
        have hkeep : (x :: xs).filter (claims seed used) =
            x :: xs.filter (claims seed used) := by
          simp [List.filter_cons, claims, hu, hs]
        rw [hcongr, hkeep]
        simp [List.append_assoc]
      · rw [if_neg hs, collectGroup_eq seed xs used hxs]
        have hskip : (x :: xs).filter (claims seed used) =
            xs.filter (claims seed used) := by
          simp [List.filter_cons, claims, hs]
        rw [hskip]

/-- `buildGroups` on a duplicate-free item list equals the
specification-shaped grouping of the still-unclaimed items. -/
theorem buildGroups_eq :
    ∀ (l : List Item) (used : List Nat), (l.map Item.id).Nodup →
    buildGroups l used = groupsSpec (l.filter (fun y => !decide (y.id ∈ used)))
  | [], _, _ => by simp [buildGroups, groupsSpec]
  | x :: xs, used, h => by
    have hxs : (xs.map Item.id).Nodup := (List.nodup_cons.mp h).2
    have hxid : x.id ∉ xs.map Item.id := (List.nodup_cons.mp h).1
    have hne : ∀ y ∈ xs, y.id ≠ x.id :=
      fun y hy hEq => hxid (hEq ▸ List.mem_map_of_mem Item.id hy)
    rw [buildGroups]
    by_cases hu : x.id ∈ used
    · rw [if_pos (by simpa using hu), buildGroups_eq xs used hxs]
      have hskip : (x :: xs).filter (fun y => !decide (y.id ∈ used)) =
          xs.filter (fun y => !decide (y.id ∈ used)) := by
        simp [List.filter_cons, hu]
      rw [hskip]
    · rw [if_neg (by simpa using hu)]
      have hcg := collectGroup_eq x xs (x.id :: used) hxs
      have hcongr : xs.filter (claims x (x.id :: used)) =
          xs.filter (claims x used) := by
        apply List.filter_congr
        intro y hy
        simp [claims, List.mem_cons, hne y hy]
      rw [hcongr] at hcg
      set g := xs.filter (claims x used) with hg
      set u := (g.map Item.id).reverse ++ x.id :: used with huDef
      have hyg : ∀ y ∈ xs, (y.id ∈ g.map Item.id ↔ y ∈ g) := by
        intro y hy
        constructor
        · intro hmem
          obtain ⟨z, hz, hzid⟩ := List.mem_map.mp hmem
          have hzxs : z ∈ xs := List.mem_of_mem_filter hz
          exact (item_id_inj hxs hzxs hy hzid) ▸ hz
        · exact fun hmem => List.mem_map_of_mem Item.id hmem
      have husedmem : ∀ y ∈ xs,
          (y.id ∈ u ↔ (y.id ∈ used ∨ SIMILARITY_THRESHOLD ≤ areSimilar x y)) := by
        intro y hy
        rw [huDef]
        simp only [List.mem_append, List.mem_reverse, List.mem_cons, hyg y hy]
        constructor
        · rintro (hmem | hxeq | hus)
          · have := (List.mem_filter.mp hmem).2
            have := of_decide_eq_true (Bool.and_elim_right this)
            exact Or.inr this
          · exact absurd hxeq (hne y hy)
          · exact Or.inl hus
        · rintro (hus | hsim)
          · exact Or.inr (Or.inr hus)
          · by_cases hus : y.id ∈ used
            · exact Or.inr (Or.inr hus)
            · refine Or.inl (List.mem_filter.mpr ⟨hy, ?_⟩)
              simp [claims, hus, hsim]
      rw [hcg]
      show (if g.isEmpty then buildGroups xs u else (x :: g) :: buildGroups xs u) = _
      rw [buildGroups_eq xs u hxs]
      have hrestfilter : xs.filter (fun y => !decide (y.id ∈ u)) =
          (xs.filter (fun y => !decide (y.id ∈ used))).filter
            (fun y => !decide (SIMILARITY_THRESHOLD ≤ areSimilar x y)) := by
        rw [List.filter_filter]
        apply List.filter_congr
        intro y hy
        rw [Bool.eq_iff_iff]
        simp only [Bool.and_eq_true, Bool.not_eq_true', decide_eq_false_iff_not]
        rw [husedmem y hy]
        tauto
      rw [hrestfilter]
      have hxcons : (x :: xs).filter (fun y => !decide (y.id ∈ used)) =
          x :: xs.filter (fun y => !decide (y.id ∈ used)) := by
        simp [List.filter_cons, hu]
      rw [hxcons, groupsSpec]
      have hgg : (xs.filter (fun y => !decide (y.id ∈ used))).filter
          (fun y => decide (SIMILARITY_THRESHOLD ≤ areSimilar x y)) = g := by
        rw [hg, List.filter_filter]
        apply List.filter_congr
        intro y _
        simp [claims, Bool.and_comm]
      rw [hgg]
      by_cases hge : g.isEmpty <;> simp [hge]

/-- Every group of the specification-shaped grouping consists of a seed
together with a nonempty tail of records similar to that seed. -/
theorem groupsSpec_sound : ∀ (items : List Item), ∀ g ∈ groupsSpec items,
    ∃ seed rest, g = seed :: rest ∧ rest ≠ [] ∧
      ∀ y ∈ rest, SIMILARITY_THRESHOLD ≤ areSimilar seed y
  | [] => by simp [groupsSpec]
  | x :: xs => by
    intro g hg
    rw [groupsSpec] at hg
    rcases List.mem_append.mp hg with hleft | hright
    · by_cases hge : (xs.filter
          (fun y => decide (SIMILARITY_THRESHOLD ≤ areSimilar x y))).isEmpty
      · rw [if_pos hge] at hleft
        exact absurd hleft (List.not_mem_nil g)
      · rw [if_neg hge] at hleft
        have hgx : g = x :: xs.filter
            (fun y => decide (SIMILARITY_THRESHOLD ≤ areSimilar x y)) := by
          simpa using hleft
        refine ⟨x, _, hgx, ?_, ?_⟩
        · intro hnil
          rw [hnil] at hge
          exact hge rfl
        · intro y hy
          have := (List.mem_filter.mp hy).2
          exact of_decide_eq_true this
    · exact groupsSpec_sound
        (xs.filter (fun y => !decide (SIMILARITY_THRESHOLD ≤ areSimilar x y)))
        g hright
termination_by items => items.length
decreasing_by
  simp only [List.length_cons]
  exact Nat.lt_succ_of_le (List.length_filter_le _ _)

/-! ### Claim C5: the grouping rule of `findDuplicates` -/

/-- `created_at`-ordered test records (same project).  Pairwise scores:
`areSimilar itemA itemB = areSimilar itemB itemC = 23/30 ≥ 0.7`,
`areSimilar itemA itemC = 2/3 < 0.7`. -/
def itemA : Item := ⟨1, "shr wrd aaaa", "p", "open", 1⟩

/-- Second test record, similar to both `itemA` and `itemC`. -/
def itemB : Item := ⟨2, "shr wrd aabb", "p", "open", 2⟩

/-- Third test record, similar to `itemB` but not to `itemA`. -/
def itemC : Item := ⟨3, "shr wrd bbbb", "p", "open", 3⟩

/-- Evaluation of `similarity` once the guards are settled:
`1 - distance / maxLen`. -/
theorem similarity_eval (s t : String) (d m : Nat)
    (hs : ¬ s = "") (ht : ¬ t = "")
    (hts : jsTrim (jsToLower s) = s) (htt : jsTrim (jsToLower t) = t)
    (hst : ¬ s = t) (hlev : levenshteinDistance s t = d)
    (hmax : max s.length t.length = m) (hm : ¬ m = 0) :
    similarity s t = 1 - (d : ℚ) / (m : ℚ) := by
  rw [similarity, if_neg (by simp [hs, ht])]
  simp only [hts, htt]
  rw [if_neg hst, hmax, if_neg hm, hlev]

/-- `similarity itemA.title itemB.title = 1 - 2/12`. -/
theorem similarity_AB : similarity "shr wrd aaaa" "shr wrd aabb" = 5 / 6 := by
  rw [similarity_eval "shr wrd aaaa" "shr wrd aabb" 2 12 (by decide) (by decide)
    (by decide) (by decide) (by decide) (by decide) (by decide) (by decide)]
  norm_num

/-- `similarity itemB.title itemC.title = 1 - 2/12`. -/
theorem similarity_BC : similarity "shr wrd aabb" "shr wrd bbbb" = 5 / 6 := by
  rw [similarity_eval "shr wrd aabb" "shr wrd bbbb" 2 12 (by decide) (by decide)
    (by decide) (by decide) (by decide) (by decide) (by decide) (by decide)]
  norm_num

/-- `similarity itemB.title itemA.title = 1 - 2/12`. -/
theorem similarity_BA : similarity "shr wrd aabb" "shr wrd aaaa" = 5 / 6 := by
  rw [similarity_eval "shr wrd aabb" "shr wrd aaaa" 2 12 (by decide) (by decide)
    (by decide) (by decide) (by decide) (by decide) (by decide) (by decide)]
  norm_num

/-- `similarity itemA.title itemC.title = 1 - 4/12`. -/
theorem similarity_AC : similarity "shr wrd aaaa" "shr wrd bbbb" = 2 / 3 := by
  rw [similarity_eval "shr wrd aaaa" "shr wrd bbbb" 4 12 (by decide) (by decide)
    (by decide) (by decide) (by decide) (by decide) (by decide) (by decide)]
  norm_num

/-- Evaluation of `areSimilar` for same-project items with known title
similarity and term sets. -/
theorem areSimilar_eval (i j : Item) (ts : ℚ) (T1 T2 C : List String) (m : Nat)
    (hp : i.project_id = j.project_id)
    (hsim : similarity i.title j.title = ts)
    (h1 : extractTerms i.title = T1) (h2 : extractTerms j.title = T2)
    (hc : T1.filter (fun t => T2.contains t) = C)
    (hm : max (max T1.length T2.length) 1 = m) :
    areSimilar i j = ts * (6 / 10) + ((C.length : ℚ) / (m : ℚ)) * (4 / 10) := by
  rw [areSimilar, if_neg (by simp [hp])]
  simp only [h1, h2, hsim, hc]
  rw [← hm]
  push_cast
  ring

/-- `areSimilar itemA itemB = 23/30` (two of three terms shared). -/
theorem areSimilar_AB : areSimilar itemA itemB = 23 / 30 := by
  rw [areSimilar_eval itemA itemB (5 / 6) ["shr", "wrd", "aaaa"]
    ["shr", "wrd", "aabb"] ["shr", "wrd"] 3 (by decide) similarity_AB
    (by decide) (by decide) (by decide) (by decide)]
  norm_num

/-- `areSimilar itemB itemC = 23/30`. -/
theorem areSimilar_BC : areSimilar itemB itemC = 23 / 30 := by
  rw [areSimilar_eval itemB itemC (5 / 6) ["shr", "wrd", "aabb"]
    ["shr", "wrd", "bbbb"] ["shr", "wrd"] 3 (by decide) similarity_BC
    (by decide) (by decide) (by decide) (by decide)]
  norm_num

/-- `areSimilar itemB itemA = 23/30`. -/
theorem areSimilar_BA : areSimilar itemB itemA = 23 / 30 := by
  rw [areSimilar_eval itemB itemA (5 / 6) ["shr", "wrd", "aabb"]
    ["shr", "wrd", "aaaa"] ["shr", "wrd"] 3 (by decide) similarity_BA
    (by decide) (by decide) (by decide) (by decide)]
  norm_num

/-- `areSimilar itemA itemC = 2/3`: only one third of the title differs
but only one of three terms is shared either way. -/
theorem areSimilar_AC : areSimilar itemA itemC = 2 / 3 := by
  rw [areSimilar_eval itemA itemC (2 / 3) ["shr", "wrd", "aaaa"]
    ["shr", "wrd", "bbbb"] ["shr", "wrd"] 3 (by decide) similarity_AC
    (by decide) (by decide) (by decide) (by decide)]
  norm_num

/-- `23/30` clears the threshold. -/
theorem threshold_le_23_30 : SIMILARITY_THRESHOLD ≤ (23 : ℚ) / 30 := by
  rw [SIMILARITY_THRESHOLD]
  norm_num

/-- `2/3` misses the threshold. -/
theorem not_threshold_le_2_3 : ¬ SIMILARITY_THRESHOLD ≤ (2 : ℚ) / 3 := by
  rw [SIMILARITY_THRESHOLD]
  norm_num

/-- The concrete run: `itemB` joins `itemA`'s group, `itemC` joins nothing. -/
theorem groups_run_ABC :
    findDuplicatesGroups [itemA, itemB, itemC] = [[itemA, itemB]] := by
  have hAB : SIMILARITY_THRESHOLD ≤ areSimilar itemA itemB :=
    areSimilar_AB ▸ threshold_le_23_30
  have hAC : ¬ SIMILARITY_THRESHOLD ≤ areSimilar itemA itemC :=
    areSimilar_AC ▸ not_threshold_le_2_3
  have idA : itemA.id = 1 := rfl
  have idB : itemB.id = 2 := rfl
  have idC : itemC.id = 3 := rfl
  simp [findDuplicatesGroups, buildGroups, collectGroup, idA, idB, idC, hAB, hAC]

/-- The concrete run seeded at `itemB`: both `itemA` and `itemC` join
`itemB`'s group although they are not similar to each other. -/
theorem groups_run_BAC :
    findDuplicatesGroups [itemB, itemA, itemC] = [[itemB, itemA, itemC]] := by
  have hBA : SIMILARITY_THRESHOLD ≤ areSimilar itemB itemA :=
    areSimilar_BA ▸ threshold_le_23_30
  have hBC : SIMILARITY_THRESHOLD ≤ areSimilar itemB itemC :=
    areSimilar_BC ▸ threshold_le_23_30
  have idA : itemA.id = 1 := rfl
  have idB : itemB.id = 2 := rfl
  have idC : itemC.id = 3 := rfl
  simp [findDuplicatesGroups, buildGroups, collectGroup, idA, idB, idC, hBA, hBC]

/-- C5, counterexample.  The claim says a later record joins a group
whenever its `areSimilar` score with *any already-grouped member* reaches
the 0.7 threshold.  On `[itemA, itemB, itemC]` the algorithm groups
`itemB` with `itemA`, `areSimilar itemB itemC = 23/30 ≥ 0.7`, yet `itemC`
belongs to no reported group: the inner scan compares only against the
group's first member (`items[i]`), and `areSimilar itemA itemC = 2/3 < 0.7`. -/
theorem findDuplicates_single_link_refuted :
    SIMILARITY_THRESHOLD ≤ areSimilar itemB itemC ∧
    (∃ g ∈ findDuplicatesGroups [itemA, itemB, itemC], itemB ∈ g) ∧
    ∀ g ∈ findDuplicatesGroups [itemA, itemB, itemC], itemC ∉ g := by
  refine ⟨areSimilar_BC ▸ threshold_le_23_30, ?_, ?_⟩
  · rw [groups_run_ABC]
    exact ⟨[itemA, itemB], by decide, by decide⟩
  · rw [groups_run_ABC]
    intro g hg
    have : g = [itemA, itemB] := by simpa using hg
    rw [this]
    decide

/-- C5, amended: on duplicate-free ids, `findDuplicates` grouping equals
single-seed clustering — repeatedly seed a group at the first unclaimed
record and claim exactly the later unclaimed records whose pairwise
`areSimilar` score *with that seed* is at least 0.7; only groups of two or
more members are reported, every non-seed member is similar to the seed,
and a group can still contain two members that are not pairwise similar
to each other (both chained through the seed). -/
theorem findDuplicates_seed_link (items : List Item)
    (hids : (items.map Item.id).Nodup) :
    findDuplicatesGroups items = groupsSpec items ∧
    (∀ g ∈ findDuplicatesGroups items, ∃ seed rest, g = seed :: rest ∧
      rest ≠ [] ∧ ∀ y ∈ rest, SIMILARITY_THRESHOLD ≤ areSimilar seed y) ∧
    (∃ (chained : List Item) (g : List Item) (a b : Item),
      (chained.map Item.id).Nodup ∧ g ∈ findDuplicatesGroups chained ∧
      a ∈ g ∧ b ∈ g ∧ areSimilar a b < SIMILARITY_THRESHOLD) := by
  have heq : findDuplicatesGroups items = groupsSpec items := by
    rw [findDuplicatesGroups, buildGroups_eq items [] hids]
    simp
  refine ⟨heq, ?_, ?_⟩
  · intro g hg
    rw [heq] at hg
    exact groupsSpec_sound items g hg
  · refine ⟨[itemB, itemA, itemC], [itemB, itemA, itemC], itemA, itemC,
      by decide, ?_, by decide, by decide, ?_⟩
    · rw [groups_run_BAC]
      decide
    · rw [areSimilar_AC, SIMILARITY_THRESHOLD]
      norm_num

/-- C5, witness for the amended theorem at `[itemA, itemB, itemC]`. -/
theorem findDuplicates_seed_link_witness :
    findDuplicatesGroups [itemA, itemB, itemC] = groupsSpec [itemA, itemB, itemC] ∧
    (∀ g ∈ findDuplicatesGroups [itemA, itemB, itemC], ∃ seed rest, g = seed :: rest ∧
      rest ≠ [] ∧ ∀ y ∈ rest, SIMILARITY_THRESHOLD ≤ areSimilar seed y) ∧
    (∃ (chained : List Item) (g : List Item) (a b : Item),
      (chained.map Item.id).Nodup ∧ g ∈ findDuplicatesGroups chained ∧
      a ∈ g ∧ b ∈ g ∧ areSimilar a b < SIMILARITY_THRESHOLD) :=
  findDuplicates_seed_link [itemA, itemB, itemC] (by decide)

/-! ### Phase assigner: `calculatePhaseMatch`, `findBestPhase`
(services/phaseAssigner) -/

/-- A phase as `findBestPhase` sees it: row fields plus the extracted
keyword set. -/
structure Phase where
  id : Nat
  phase_num : Nat
  name : String
  keywords : List String
  deriving DecidableEq, Repr

/-- `calculatePhaseMatch(itemTitle, phase)`: the fraction of the item's
terms found among the phase's keywords; 0 when the item has no terms or
the phase has no keywords. -/
def calculatePhaseMatch (itemTitle : String) (phase : Phase) : ℚ :=
  let itemTerms := extractTerms itemTitle
  if itemTerms.length = 0 ∨ phase.keywords.length = 0 then 0
  else
    let matched := itemTerms.filter (fun t => phase.keywords.contains t)
    (matched.length : ℚ) / (itemTerms.length : ℚ)

/-- The object `findBestPhase` returns. -/
structure BestMatch where
  phaseId : Nat
  phaseName : String
  phaseNum : Nat
  score : ℚ
  deriving DecidableEq, Repr

/-- The loop of `findBestPhase`, carrying `bestMatch` and `bestScore`. -/
def findBestPhaseAux (itemTitle : String) (minScore : ℚ) :
    List Phase → Option BestMatch → ℚ → Option BestMatch
  | [], best, _ => best
  | p :: ps, best, bestScore =>
    let score := calculatePhaseMatch itemTitle p
    if bestScore < score ∧ minScore ≤ score then
      findBestPhaseAux itemTitle minScore ps
        (some ⟨p.id, p.name, p.phase_num, score⟩) score
    else findBestPhaseAux itemTitle minScore ps best bestScore

/-- `findBestPhase(itemTitle, phases, minScore)` (JS default
`minScore = 0.3`): `bestMatch` starts `null` and `bestScore` 0. -/
def findBestPhase (itemTitle : String) (phases : List Phase)
    (minScore : ℚ) : Option BestMatch :=
  findBestPhaseAux itemTitle minScore phases none 0

/-- Invariant-passing characterization of the `findBestPhase` loop. -/
theorem findBestPhaseAux_spec (title : String) (minScore : ℚ)
    (hpos : 0 < minScore) :
    ∀ (rest seen : List Phase) (best : Option BestMatch) (bestScore : ℚ),
    ((best = none ∧ bestScore = 0 ∧
        ∀ p ∈ seen, calculatePhaseMatch title p < minScore) ∨
      (∃ l1 p l2, seen = l1 ++ p :: l2 ∧
        best = some ⟨p.id, p.name, p.phase_num, calculatePhaseMatch title p⟩ ∧
        bestScore = calculatePhaseMatch title p ∧ minScore ≤ bestScore ∧
        (∀ q ∈ l1, calculatePhaseMatch title q < bestScore) ∧
        (∀ q ∈ l2, calculatePhaseMatch title q ≤ bestScore))) →
    ((findBestPhaseAux title minScore rest best bestScore = none ↔
        ∀ p ∈ seen ++ rest, calculatePhaseMatch title p < minScore) ∧
      (∀ bm, findBestPhaseAux title minScore rest best bestScore = some bm →
        ∃ l1 p l2, seen ++ rest = l1 ++ p :: l2 ∧
          bm = ⟨p.id, p.name, p.phase_num, calculatePhaseMatch title p⟩ ∧
          minScore ≤ calculatePhaseMatch title p ∧
          (∀ q ∈ l1, calculatePhaseMatch title q < calculatePhaseMatch title p) ∧
          (∀ q ∈ l2, calculatePhaseMatch title q ≤ calculatePhaseMatch title p)))
  | [], seen, best, bestScore => by
    intro hinv
    rw [findBestPhaseAux, List.append_nil]
    rcases hinv with ⟨hb, _, hall⟩ | ⟨l1, p, l2, hseen, hb, hbs, hms, hl1, hl2⟩
    · subst hb
      refine ⟨iff_of_true rfl hall, ?_⟩
      intro bm hbm
      exact absurd hbm (by simp)
    · subst hb hseen
      refine ⟨?_, ?_⟩
      · constructor
        · intro hnone
          exact absurd hnone (by simp)
        · intro hall
          have := hall p (by simp)
          rw [hbs] at hms
          exact absurd hms (not_le.mpr this)
      · intro bm hbm
        have hbm' : bm =
            (⟨p.id, p.name, p.phase_num, calculatePhaseMatch title p⟩ : BestMatch) := by
          injection hbm with h
          exact h.symm
        refine ⟨l1, p, l2, rfl, hbm', ?_, ?_, ?_⟩
        · rw [← hbs]; exact hms
        · intro q hq; rw [← hbs]; exact hl1 q hq
        · intro q hq; rw [← hbs]; exact hl2 q hq
  | x :: rest, seen, best, bestScore => by
    intro hinv
    rw [findBestPhaseAux]
    set score := calculatePhaseMatch title x with hscore
    by_cases hcond : bestScore < score ∧ minScore ≤ score
    · rw [if_pos hcond]
      have hallseen : ∀ q ∈ seen, calculatePhaseMatch title q < score := by
        rcases hinv with ⟨_, hbs, hall⟩ | ⟨l1, p, l2, hseen, _, hbs, hms, hl1, hl2⟩
        · intro q hq
          exact lt_of_lt_of_le (hall q hq) hcond.2
        · subst hseen
          intro q hq
          rcases List.mem_append.mp hq with hq1 | hq2
          · exact lt_trans (hl1 q hq1) (hbs ▸ hcond.1)
          · rcases List.mem_cons.mp hq2 with rfl | hq3
            · exact hbs ▸ hcond.1
            · exact lt_of_le_of_lt (hl2 q hq3) (hbs ▸ hcond.1)
      have hnext := findBestPhaseAux_spec title minScore hpos rest (seen ++ [x])
        (some ⟨x.id, x.name, x.phase_num, score⟩) score
        (Or.inr ⟨seen, x, [], by simp, rfl, rfl, hcond.2, hallseen, by simp⟩)
      rwa [List.append_assoc, List.singleton_append] at hnext
    · rw [if_neg hcond]
      have hinv' : (best = none ∧ bestScore = 0 ∧
          ∀ p ∈ seen ++ [x], calculatePhaseMatch title p < minScore) ∨
          (∃ l1 p l2, seen ++ [x] = l1 ++ p :: l2 ∧
            best = some ⟨p.id, p.name, p.phase_num, calculatePhaseMatch title p⟩ ∧
            bestScore = calculatePhaseMatch title p ∧ minScore ≤ bestScore ∧
            (∀ q ∈ l1, calculatePhaseMatch title q < bestScore) ∧
            (∀ q ∈ l2, calculatePhaseMatch title q ≤ bestScore)) := by
        rcases hinv with ⟨hb, hbs, hall⟩ | ⟨l1, p, l2, hseen, hb, hbs, hms, hl1, hl2⟩
        · have hxlt : score < minScore := by
            by_contra hge
            push_neg at hge
            exact hcond ⟨hbs ▸ lt_of_lt_of_le hpos hge, hge⟩
          refine Or.inl ⟨hb, hbs, ?_⟩
          intro q hq
          rcases List.mem_append.mp hq with hq1 | hq2
          · exact hall q hq1
          · rcases List.mem_cons.mp hq2 with rfl | hq3
            · exact hxlt
            · exact absurd hq3 (List.not_mem_nil q)
        · have hxle : score ≤ bestScore := by
            by_contra hgt
            push_neg at hgt
            refine hcond ⟨hgt, le_trans hms (le_of_lt hgt)⟩
          refine Or.inr ⟨l1, p, l2 ++ [x], by rw [hseen]; simp, hb, hbs, hms, hl1, ?_⟩
          intro q hq
          rcases List.mem_append.mp hq with hq1 | hq2
          · exact hl2 q hq1
          · rcases List.mem_cons.mp hq2 with rfl | hq3
            · exact hxle
            · exact absurd hq3 (List.not_mem_nil q)
      have hnext := findBestPhaseAux_spec title minScore hpos rest (seen ++ [x])
        best bestScore hinv'
      rwa [List.append_assoc, List.singleton_append] at hnext

/-- C9: `findBestPhase` returns `null` exactly when no phase reaches
`minScore`; otherwise it returns the first phase attaining the maximal
`calculatePhaseMatch` score — every earlier phase scores strictly lower
and every later phase at most as much (ties keep the first) — and that
score is at least `minScore`.  `calculatePhaseMatch` is the number of
item-title terms found among the phase's keywords over the number of
item-title terms, 0 when either side is empty. -/
theorem findBestPhase_first_argmax (title : String) (phases : List Phase)
    (minScore : ℚ) (hpos : 0 < minScore) :
    (findBestPhase title phases minScore = none ↔
      ∀ p ∈ phases, calculatePhaseMatch title p < minScore) ∧
    (∀ bm, findBestPhase title phases minScore = some bm →
      ∃ l1 p l2, phases = l1 ++ p :: l2 ∧
        bm = ⟨p.id, p.name, p.phase_num, calculatePhaseMatch title p⟩ ∧
        minScore ≤ calculatePhaseMatch title p ∧
        (∀ q ∈ l1, calculatePhaseMatch title q < calculatePhaseMatch title p) ∧
        (∀ q ∈ l2, calculatePhaseMatch title q ≤ calculatePhaseMatch title p)) ∧
    (∀ p : Phase, extractTerms title = [] ∨ p.keywords = [] →
      calculatePhaseMatch title p = 0) := by
  have h := findBestPhaseAux_spec title minScore hpos phases [] none 0
    (Or.inl ⟨rfl, rfl, by simp⟩)
  rw [List.nil_append] at h
  refine ⟨h.1, h.2, ?_⟩
  intro p hp
  rw [calculatePhaseMatch]
  rcases hp with h0 | h0 <;> simp [h0]

/-- C9, witness: one phase below the 0.3 default threshold, one above;
the second is returned with score `2/3`. -/
theorem findBestPhase_first_argmax_witness :
    (findBestPhase "fix login bug dashboard" [⟨1, 1, "setup", ["install"]⟩,
        ⟨2, 2, "auth", ["login", "dashboard"]⟩] (3 / 10) = none ↔
      ∀ p ∈ [(⟨1, 1, "setup", ["install"]⟩ : Phase), ⟨2, 2, "auth", ["login", "dashboard"]⟩],
        calculatePhaseMatch "fix login bug dashboard" p < 3 / 10) ∧
    (∀ bm, findBestPhase "fix login bug dashboard" [⟨1, 1, "setup", ["install"]⟩,
        ⟨2, 2, "auth", ["login", "dashboard"]⟩] (3 / 10) = some bm →
      ∃ l1 p l2, [(⟨1, 1, "setup", ["install"]⟩ : Phase), ⟨2, 2, "auth", ["login", "dashboard"]⟩] = l1 ++ p :: l2 ∧
        bm = ⟨p.id, p.name, p.phase_num, calculatePhaseMatch "fix login bug dashboard" p⟩ ∧
        3 / 10 ≤ calculatePhaseMatch "fix login bug dashboard" p ∧
        (∀ q ∈ l1, calculatePhaseMatch "fix login bug dashboard" q <
          calculatePhaseMatch "fix login bug dashboard" p) ∧
        (∀ q ∈ l2, calculatePhaseMatch "fix login bug dashboard" q ≤
          calculatePhaseMatch "fix login bug dashboard" p)) ∧
    (∀ p : Phase, extractTerms "fix login bug dashboard" = [] ∨ p.keywords = [] →
      calculatePhaseMatch "fix login bug dashboard" p = 0) :=
  findBestPhase_first_argmax "fix login bug dashboard"
    [⟨1, 1, "setup", ["install"]⟩, ⟨2, 2, "auth", ["login", "dashboard"]⟩]
    (3 / 10) (by norm_num)

/-! ### Consolidator: `mergeTitles` (services/consolidator) -/

/-- JS `Set.add` over a traversal, tracking the elements already seen. -/
def dedupFirstAux : List String → List String → List String
  | _, [] => []
  | seen, x :: xs =>
    if x ∈ seen then dedupFirstAux seen xs
    else x :: dedupFirstAux (x :: seen) xs

/-- JS `Set` insertion order over a traversal: keep the first occurrence
of each element. -/
def dedupFirst (l : List String) : List String :=
  dedupFirstAux [] l

/-- One step of `termCounts[t] = (termCounts[t] || 0) + 1` on a JS object
modelled as an insertion-ordered association list. -/
def bumpCount (acc : List (String × Nat)) (t : String) : List (String × Nat) :=
  if acc.any (fun p => p.1 = t) then
    acc.map (fun p => if p.1 = t then (p.1, p.2 + 1) else p)
  else acc ++ [(t, 1)]

/-- The `termCounts` object of `mergeTitles`, built over all terms of all
titles in order, as a plain count table (the spec-side reading). -/
def termCounts (terms : List String) : List (String × Nat) :=
  terms.foldl bumpCount []

/-- A `termCounts` property value: a numeric count, or the string a
prototype collision produces — `(termCounts[t] || 0) + 1` on a first read
of the truthy inherited `Object.prototype.constructor` concatenates into
a string.  Its engine-dependent text is never printed and never strictly
equals a number, so only its stringness is carried. -/
inductive CountVal where
  | num (n : Nat)
  | strv
  deriving DecidableEq, Repr

/-- `(v || 0) + 1` on an existing own value: numbers increment, a
collided string stays a string. -/
def bumpVal : CountVal → CountVal
  | .num n => .num (n + 1)
  | .strv => .strv

/-- One step of `termCounts[t] = (termCounts[t] || 0) + 1` with JS object
semantics: writing key `__proto__` invokes the inherited accessor and
creates no own property; a fresh `constructor` key starts from the
inherited function and becomes a string; any other fresh key starts from
`undefined || 0`. -/
def bumpCountJs (acc : List (String × CountVal)) (t : String) :
    List (String × CountVal) :=
  if t = "__proto__" then acc
  else if acc.any (fun p => p.1 = t) then
    acc.map (fun p => if p.1 = t then (p.1, bumpVal p.2) else p)
  else if t = "constructor" then acc ++ [(t, .strv)]
  else acc ++ [(t, .num 1)]

/-- The `termCounts` object: its own properties, in insertion order. -/
def termCountsJs (terms : List String) : List (String × CountVal) :=
  terms.foldl bumpCountJs []

/-- The numeric value of a digit string. -/
def digitsVal (cs : List Char) : Nat :=
  cs.foldl (fun a c => a * 10 + (c.toNat - 48)) 0

/-- A canonical array-index key (a digit string with no leading zero,
below 2^32 − 1), which JS key enumeration lists before other keys. -/
def isArrayIndex (s : String) : Bool :=
  let cs := s.toList
  !cs.isEmpty && cs.all (fun c => c.isDigit) &&
    (cs = ['0'] || cs.head? ≠ some '0') && digitsVal cs < 4294967295

/-- Ordered insertion by numeric key value (distinct canonical digit
strings have distinct values, so ties cannot occur). -/
def insertByKeyVal (x : String × CountVal) :
    List (String × CountVal) → List (String × CountVal)
  | [] => [x]
  | y :: ys =>
    if digitsVal x.1.toList ≤ digitsVal y.1.toList then x :: y :: ys
    else y :: insertByKeyVal x ys

/-- Ascending numeric sort of the array-index keys. -/
def sortByKeyVal : List (String × CountVal) → List (String × CountVal)
  | [] => []
  | x :: xs => insertByKeyVal x (sortByKeyVal xs)

/-- `Object.entries` enumeration order: integer-like own keys first in
ascending numeric order, then the remaining own keys in insertion
order. -/
def jsEntries (obj : List (String × CountVal)) : List (String × CountVal) :=
  sortByKeyVal (obj.filter (fun p => isArrayIndex p.1)) ++
    obj.filter (fun p => !isArrayIndex p.1)

/-- `mergeTitles(titles)`.  The computed-but-unused `shortest` of the
source is omitted; the `termCounts` JS object is modelled with its
property-write semantics (`bumpCountJs`), `Object.entries` with its
integer-keys-first enumeration order (`jsEntries`), a count is common
when it strictly equals the number of titles (a collided string value
never does), and `Set` insertion order is `dedupFirst`. -/
def mergeTitles (titles : List String) : String :=
  if titles.length = 0 then ""
  else if titles.length = 1 then titles.headD ""
  else
    let allTerms := titles.map extractTerms
    let joined := allTerms.flatten
    let uniqueTerms := dedupFirst joined
    let commonTerms :=
      ((jsEntries (termCountsJs joined)).filter
        (fun p => p.2 = CountVal.num titles.length)).map Prod.fst
    let uniqueOnlyTerms := uniqueTerms.filter (fun t => !commonTerms.contains t)
    if 0 < commonTerms.length ∧ 0 < uniqueOnlyTerms.length then
      let pfx := String.intercalate " " (commonTerms.take 1)
      let sfx := String.intercalate " " (commonTerms.drop 1)
      let itemsStr := String.intercalate ", " uniqueOnlyTerms
      if sfx ≠ "" then pfx ++ " " ++ itemsStr ++ " " ++ sfx
      else pfx ++ " " ++ itemsStr
    else
      String.intercalate ", " titles.dropLast ++ " and " ++ titles.getLastD ""

/-- The merge the claim describes: identical to `mergeTitles` except that
the common terms are those *appearing in every title's term set* (rather
than those whose total occurrence count equals the number of titles). -/
def mergeTitlesClaimed (titles : List String) : String :=
  if titles.length = 0 then ""
  else if titles.length = 1 then titles.headD ""
  else
    let allTerms := titles.map extractTerms
    let joined := allTerms.flatten
    let uniqueTerms := dedupFirst joined
    let commonTerms :=
      uniqueTerms.filter (fun t => allTerms.all (fun terms => terms.contains t))
    let uniqueOnlyTerms := uniqueTerms.filter (fun t => !commonTerms.contains t)
    if 0 < commonTerms.length ∧ 0 < uniqueOnlyTerms.length then
      let pfx := String.intercalate " " (commonTerms.take 1)
      let sfx := String.intercalate " " (commonTerms.drop 1)
      let itemsStr := String.intercalate ", " uniqueOnlyTerms
      if sfx ≠ "" then pfx ++ " " ++ itemsStr ++ " " ++ sfx
      else pfx ++ " " ++ itemsStr
    else
      String.intercalate ", " titles.dropLast ++ " and " ++ titles.getLastD ""

/-- The amended specification: common terms are the distinct terms whose
*total occurrence count* across all titles' term lists equals the number
of titles, in first-occurrence order. -/
def mergeTitlesSpec (titles : List String) : String :=
  if titles.length = 0 then ""
  else if titles.length = 1 then titles.headD ""
  else
    let allTerms := titles.map extractTerms
    let joined := allTerms.flatten
    let uniqueTerms := dedupFirst joined
    let commonTerms :=
      uniqueTerms.filter (fun t => joined.count t = titles.length)
    let uniqueOnlyTerms := uniqueTerms.filter (fun t => !commonTerms.contains t)
    if 0 < commonTerms.length ∧ 0 < uniqueOnlyTerms.length then
      let pfx := String.intercalate " " (commonTerms.take 1)
      let sfx := String.intercalate " " (commonTerms.drop 1)
      let itemsStr := String.intercalate ", " uniqueOnlyTerms
      if sfx ≠ "" then pfx ++ " " ++ itemsStr ++ " " ++ sfx
      else pfx ++ " " ++ itemsStr
    else
      String.intercalate ", " titles.dropLast ++ " and " ++ titles.getLastD ""

/-- Membership in the seen-tracking dedup. -/
theorem mem_dedupFirstAux (t : String) : ∀ (l seen : List String),
    t ∈ dedupFirstAux seen l ↔ t ∈ l ∧ t ∉ seen := by
  intro l
  induction l with
  | nil => intro seen; simp [dedupFirstAux]
  | cons x xs ih =>
    intro seen
    rw [dedupFirstAux]
    by_cases hx : x ∈ seen
    · rw [if_pos hx, ih seen]
      constructor
      · exact fun ⟨h1, h2⟩ => ⟨List.mem_cons_of_mem x h1, h2⟩
      · rintro ⟨h1, h2⟩
        rcases List.mem_cons.mp h1 with rfl | h3
        · exact absurd hx h2
        · exact ⟨h3, h2⟩
    · rw [if_neg hx]
      by_cases htx : t = x
      · subst htx
        simp [hx]
      · simp only [List.mem_cons, htx, false_or, ih (x :: seen)]

/-- Membership is preserved by first-occurrence deduplication. -/
theorem mem_dedupFirst (l : List String) (t : String) :
    t ∈ dedupFirst l ↔ t ∈ l := by
  rw [dedupFirst, mem_dedupFirstAux]
  simp

/-- Appending an element already in the list or already seen does not
change the dedup. -/
theorem dedupFirstAux_append_mem (x : String) : ∀ (m seen : List String),
    x ∈ m ∨ x ∈ seen →
    dedupFirstAux seen (m ++ [x]) = dedupFirstAux seen m := by
  intro m
  induction m with
  | nil =>
    intro seen hx
    have hxs : x ∈ seen := by
      rcases hx with h | h
      · exact absurd h (List.not_mem_nil x)
      · exact h
    simp [dedupFirstAux, hxs]
  | cons y ys ih =>
    intro seen hx
    rw [List.cons_append, dedupFirstAux, dedupFirstAux]
    by_cases hy : y ∈ seen
    · rw [if_pos hy, if_pos hy]
      apply ih
      rcases hx with h | h
      · rcases List.mem_cons.mp h with rfl | h2
        · exact Or.inr hy
        · exact Or.inl h2
      · exact Or.inr h
    · rw [if_neg hy, if_neg hy]
      congr 1
      apply ih
      rcases hx with h | h
      · rcases List.mem_cons.mp h with rfl | h2
        · exact Or.inr (List.mem_cons_self x seen)
        · exact Or.inl h2
      · exact Or.inr (List.mem_cons_of_mem y h)

/-- Appending an already-present element does not change the dedup. -/
theorem dedupFirst_append_mem (m : List String) (x : String) (hx : x ∈ m) :
    dedupFirst (m ++ [x]) = dedupFirst m :=
  dedupFirstAux_append_mem x m [] (Or.inl hx)

/-- Appending a fresh, unseen element appends it to the dedup. -/
theorem dedupFirstAux_append_not_mem (x : String) : ∀ (m seen : List String),
    x ∉ m → x ∉ seen →
    dedupFirstAux seen (m ++ [x]) = dedupFirstAux seen m ++ [x] := by
  intro m
  induction m with
  | nil =>
    intro seen _ hxs
    simp [dedupFirstAux, hxs]
  | cons y ys ih =>
    intro seen hxm hxs
    have hxy : x ≠ y := fun h => hxm (h ▸ List.mem_cons_self y ys)
    have hxys : x ∉ ys := fun h => hxm (List.mem_cons_of_mem y h)
    rw [List.cons_append, dedupFirstAux, dedupFirstAux]
    by_cases hy : y ∈ seen
    · rw [if_pos hy, if_pos hy]
      exact ih seen hxys hxs
    · rw [if_neg hy, if_neg hy, List.cons_append]
      congr 1
      exact ih (y :: seen) hxys (by simp [hxy, hxs])

/-- Appending a fresh element appends it to the dedup. -/
theorem dedupFirst_append_not_mem (m : List String) (x : String) (hx : x ∉ m) :
    dedupFirst (m ++ [x]) = dedupFirst m ++ [x] :=
  dedupFirstAux_append_not_mem x m [] hx (List.not_mem_nil x)

/-- The incremental count object equals the first-occurrence keys paired
with their total counts. -/
theorem foldl_bumpCount (l : List String) : ∀ (m : List String),
    List.foldl bumpCount ((dedupFirst m).map (fun t => (t, m.count t))) l =
      (dedupFirst (m ++ l)).map (fun t => (t, (m ++ l).count t)) := by
  induction l with
  | nil => intro m; simp
  | cons x xs ih =>
    intro m
    rw [List.foldl_cons]
    have hstep : bumpCount ((dedupFirst m).map (fun t => (t, m.count t))) x =
        (dedupFirst (m ++ [x])).map (fun t => (t, (m ++ [x]).count t)) := by
      by_cases hx : x ∈ m
      · have hcond : (((dedupFirst m).map (fun t => (t, m.count t))).any
            (fun p => p.1 = x)) = true := by
          rw [List.any_eq_true]
          exact ⟨(x, m.count x),
            List.mem_map_of_mem _ ((mem_dedupFirst m x).mpr hx), by simp⟩
        rw [bumpCount, if_pos hcond]
        rw [dedupFirst_append_mem m x hx, List.map_map]
        apply List.map_congr_left
        intro t ht
        have htm : t ∈ m := (mem_dedupFirst m t).mp ht
        by_cases hteq : t = x
        · subst hteq
          simp [List.count_append]
        · simp [hteq, List.count_append, List.count_singleton, Ne.symm hteq]
      · have hcond : ¬ (((dedupFirst m).map (fun t => (t, m.count t))).any
            (fun p => p.1 = x)) = true := by
          intro hcontra
          rw [List.any_eq_true] at hcontra
          obtain ⟨p, hp, hpx⟩ := hcontra
          obtain ⟨t, ht, rfl⟩ := List.mem_map.mp hp
          have hteq : t = x := by simpa using hpx
          exact hx (hteq ▸ (mem_dedupFirst m t).mp ht)
        rw [bumpCount, if_neg hcond]
        rw [dedupFirst_append_not_mem m x hx, List.map_append]
        congr 1
        · apply List.map_congr_left
          intro t ht
          have htm : t ∈ m := (mem_dedupFirst m t).mp ht
          have hteq : t ≠ x := fun h => hx (h ▸ htm)
          simp [List.count_append, List.count_singleton, Ne.symm hteq]
        · simp [List.count_append, List.count_eq_zero_of_not_mem hx]
    rw [hstep, ih (m ++ [x]), List.append_assoc, List.singleton_append]

/-- `termCounts` lists each distinct term once, in first-occurrence
order, with its total multiplicity. -/
theorem termCounts_eq (l : List String) :
    termCounts l = (dedupFirst l).map (fun t => (t, l.count t)) := by
  have h := foldl_bumpCount l []
  simpa [termCounts, dedupFirst] using h

/-- The code's common-term list, re-expressed over distinct terms. -/
theorem commonTerms_eq (l : List String) (n : Nat) :
    ((termCounts l).filter (fun p => p.2 = n)).map Prod.fst =
      (dedupFirst l).filter (fun t => l.count t = n) := by
  rw [termCounts_eq, List.filter_map, List.map_map]
  have h1 : ((fun p => decide (p.2 = n)) ∘ fun t => (t, l.count t)) =
      fun t => decide (l.count t = n) := rfl
  have h2 : (Prod.fst ∘ fun t => (t, l.count t)) = id := rfl
  rw [h1, h2, List.map_id]

/-- `any` over the numeric embedding tests the same keys. -/
theorem any_key_map (acc : List (String × Nat)) (t : String) :
    ((acc.map (fun p => (p.1, CountVal.num p.2))).any (fun p => p.1 = t)) =
      (acc.any (fun p => p.1 = t)) := by
  induction acc with
  | nil => rfl
  | cons a as ih => simp only [List.map_cons, List.any_cons, ih]

/-- Away from the two prototype-colliding keys, the JS count object is
the numeric count table. -/
theorem foldl_bumpCountJs :
    ∀ l : List String,
    (∀ t ∈ l, t ≠ "__proto__" ∧ t ≠ "constructor") →
    ∀ acc : List (String × Nat),
    l.foldl bumpCountJs (acc.map (fun p => (p.1, CountVal.num p.2))) =
      (l.foldl bumpCount acc).map (fun p => (p.1, CountVal.num p.2))
  | [], _, acc => by simp
  | t :: ts, hp, acc => by
    obtain ⟨hpp, hpc⟩ := hp t (List.mem_cons_self t ts)
    have hstep : bumpCountJs (acc.map (fun p => (p.1, CountVal.num p.2))) t =
        (bumpCount acc t).map (fun p => (p.1, CountVal.num p.2)) := by
      rw [bumpCountJs, bumpCount, if_neg hpp, any_key_map]
      by_cases hany : acc.any (fun p => p.1 = t) = true
      · rw [if_pos hany, if_pos hany, List.map_map, List.map_map]
        apply List.map_congr_left
        intro p _
        by_cases hpt : p.1 = t
        · simp [Function.comp, hpt, bumpVal]
        · simp [Function.comp, hpt]
      · rw [if_neg hany, if_neg hany, if_neg hpc, List.map_append]
        rfl
    rw [List.foldl_cons, List.foldl_cons, hstep,
      foldl_bumpCountJs ts (fun x hx => hp x (List.mem_cons_of_mem _ hx))
        (bumpCount acc t)]

/-- `termCountsJs` equals the numeric count table away from colliding
keys. -/
theorem termCountsJs_eq (l : List String)
    (hp : ∀ t ∈ l, t ≠ "__proto__" ∧ t ≠ "constructor") :
    termCountsJs l =
      (termCounts l).map (fun p => (p.1, CountVal.num p.2)) := by
  have h := foldl_bumpCountJs l hp []
  simpa [termCountsJs, termCounts] using h

/-- With no integer-like keys, `Object.entries` preserves insertion
order. -/
theorem jsEntries_eq_self (obj : List (String × CountVal))
    (h : ∀ p ∈ obj, ¬ isArrayIndex p.1 = true) :
    jsEntries obj = obj := by
  rw [jsEntries]
  have h1 : obj.filter (fun p => isArrayIndex p.1) = [] := by
    rw [List.filter_eq_nil_iff]
    exact h
  have h2 : obj.filter (fun p => !isArrayIndex p.1) = obj := by
    rw [List.filter_eq_self]
    intro p hp
    simp [h p hp]
  rw [h1, h2, sortByKeyVal, List.nil_append]

/-- The code's common-term list, for titles whose terms are neither
integer-like nor prototype-colliding, re-expressed over the numeric
count table. -/
theorem commonTermsJs_eq (l : List String) (n : Nat)
    (hp : ∀ t ∈ l, t ≠ "__proto__" ∧ t ≠ "constructor")
    (hi : ∀ t ∈ l, ¬ isArrayIndex t = true) :
    ((jsEntries (termCountsJs l)).filter
        (fun p => p.2 = CountVal.num n)).map Prod.fst =
      ((termCounts l).filter (fun p => p.2 = n)).map Prod.fst := by
  have hside : ∀ p ∈ (termCounts l).map
      (fun p => (p.1, CountVal.num p.2)), ¬ isArrayIndex p.1 = true := by
    intro p hpmem
    obtain ⟨q, hq, rfl⟩ := List.mem_map.mp hpmem
    rw [termCounts_eq] at hq
    obtain ⟨t, ht, rfl⟩ := List.mem_map.mp hq
    exact hi t ((mem_dedupFirst l t).mp ht)
  rw [termCountsJs_eq l hp, jsEntries_eq_self _ hside, List.filter_map,
    List.map_map]
  have h1 : ((fun p : String × CountVal => decide (p.2 = CountVal.num n)) ∘
      (fun p : String × Nat => (p.1, CountVal.num p.2))) =
      fun p : String × Nat => decide (p.2 = n) := by
    funext p
    simp
  have h2 : (Prod.fst ∘ fun p : String × Nat => (p.1, CountVal.num p.2)) =
      (Prod.fst : String × Nat → String) := rfl
  rw [h1, h2]

/-- C7, counterexample.  The claim reads the common terms as "terms
appearing in every title's term set", but the code counts total
occurrences: on `["alpha beta alpha", "beta gamma"]` the term `alpha`
occurs twice in the first title and never in the second, so the code
treats it as common (`count = 2 = number of titles`) and produces
`"alpha gamma beta"`, while the claimed per-title-membership rule yields
`"beta alpha, gamma"`. -/
theorem mergeTitles_per_title_common_refuted :
    mergeTitles ["alpha beta alpha", "beta gamma"] = "alpha gamma beta" ∧
    mergeTitlesClaimed ["alpha beta alpha", "beta gamma"] = "beta alpha, gamma" ∧
    mergeTitles ["alpha beta alpha", "beta gamma"] ≠
      mergeTitlesClaimed ["alpha beta alpha", "beta gamma"] ∧
    "alpha" ∉ extractTerms "beta gamma" := by
  decide

/-- C7, amended: for two or more titles, `mergeTitles` takes as common
terms the distinct terms whose *total occurrence count* across all
titles' term lists strictly equals the number of titles, enumerated in
JS `Object.entries` order — integer-like terms such as `404` move to the
front in ascending numeric order (`mergeTitles(["fix 404 page", "fix 404
error"]) = "404 page, error fix"`), while terms colliding with
`Object.prototype` (`constructor`, `__proto__`) corrupt or lose their
count and are never common; for titles whose terms are neither
integer-like nor prototype-colliding this is the count-based rule in
first-occurrence order.  The unique terms are the `Set`-ordered union
minus the common terms; when both are nonempty the result is the first
common term, the unique terms joined by `", "`, then the remaining
common terms, otherwise all but the last title joined by `", "` plus
`" and "` and the last title; on the claim's example the shared words
and both unique terms are all retained. -/
theorem mergeTitles_count_common (titles : List String)
    (h : 2 ≤ titles.length)
    (hsafe : ∀ t ∈ (titles.map extractTerms).flatten,
      t ≠ "__proto__" ∧ t ≠ "constructor" ∧ ¬ isArrayIndex t = true) :
    mergeTitles titles = mergeTitlesSpec titles ∧
    mergeTitles ["fix 404 page", "fix 404 error"] = "404 page, error fix" ∧
    mergeTitles ["fix login on dashboard", "fix logout on dashboard"] =
      "fix login, logout dashboard" := by
  refine ⟨?_, by decide, by decide⟩
  rw [mergeTitles, mergeTitlesSpec]
  have h0 : ¬ titles.length = 0 := by omega
  have h1 : ¬ titles.length = 1 := by omega
  rw [if_neg h0, if_neg h0, if_neg h1, if_neg h1]
  simp only [commonTermsJs_eq (titles.map extractTerms).flatten titles.length
      (fun t ht => ⟨(hsafe t ht).1, (hsafe t ht).2.1⟩)
      (fun t ht => (hsafe t ht).2.2),
    commonTerms_eq]

/-- C7, witness for the amended theorem on the claim's own example (and
the integer-key reordering example). -/
theorem mergeTitles_count_common_witness :
    mergeTitles ["fix login on dashboard", "fix logout on dashboard"] =
      mergeTitlesSpec ["fix login on dashboard", "fix logout on dashboard"] ∧
    mergeTitles ["fix 404 page", "fix 404 error"] = "404 page, error fix" ∧
    mergeTitles ["fix login on dashboard", "fix logout on dashboard"] =
      "fix login, logout dashboard" :=
  ⟨(mergeTitles_count_common
      ["fix login on dashboard", "fix logout on dashboard"]
      (by decide) (by decide)).1,
    (mergeTitles_count_common
      ["fix login on dashboard", "fix logout on dashboard"]
      (by decide) (by decide)).2.1,
    (mergeTitles_count_common
      ["fix login on dashboard", "fix logout on dashboard"]
      (by decide) (by decide)).2.2⟩

/-! ### Archiver: clean/archive selection (services/archiver) -/

/-- The `dev_ai_sessions` fields the archiver reads and writes. -/
structure Session where
  id : Nat
  status : String
  semantic_extracted_at : Int
  raw_content : String
  project_id : String
  started_at : Int
  deriving DecidableEq, Repr

/-- `PROCESS_TO_CLEAN_HOURS = 48`. -/
def PROCESS_TO_CLEAN_HOURS : Int := 48

/-- `CLEAN_TO_ARCHIVE_HOURS = 24`. -/
def CLEAN_TO_ARCHIVE_HOURS : Int := 24

/-- Milliseconds per hour (`60 * 60 * 1000`). -/
def HOUR_MS : Int := 60 * 60 * 1000

/-- `BATCH_SIZE = 20`. -/
def BATCH_SIZE : Nat := 20

/-- The clean-transition query: `status = 'extracted'` and
`semantic_extracted_at < now - 48h`, limit 20.  Timestamps are epoch
milliseconds (ISO-8601 strings compare identically); the `processed_at`
ordering of the source does not affect which predicate rows satisfy. -/
def cleanSelect (sessions : List Session) (now : Int) : List Session :=
  (sessions.filter (fun s => s.status = "extracted" &&
    decide (s.semantic_extracted_at < now - PROCESS_TO_CLEAN_HOURS * HOUR_MS))).take
    BATCH_SIZE

/-- The archive-transition query: `status = 'cleaned'` and
`semantic_extracted_at < now - (48+24)h`, limit 20. -/
def archiveSelect (sessions : List Session) (now : Int) : List Session :=
  (sessions.filter (fun s => s.status = "cleaned" &&
    decide (s.semantic_extracted_at <
      now - (PROCESS_TO_CLEAN_HOURS + CLEAN_TO_ARCHIVE_HOURS) * HOUR_MS))).take
    BATCH_SIZE

/-- The archive-transition update: set `status = 'archived'` on the
selected ids, touching nothing else. -/
def applyArchive (sessions : List Session) (now : Int) : List Session :=
  let ids := (archiveSelect sessions now).map Session.id
  sessions.map (fun s =>
    if ids.contains s.id then { s with status := "archived" } else s)

/-- Updating by id-membership touches each row either not at all or only
in its status. -/
theorem applyArchive_forall2 (ids : List Nat) : ∀ (l : List Session),
    List.Forall₂ (fun t s0 => t = s0 ∨
      (t = { s0 with status := "archived" } ∧ s0.id ∈ ids))
      (l.map (fun s =>
        if ids.contains s.id then { s with status := "archived" } else s)) l
  | [] => by simp
  | x :: xs => by
    rw [List.map_cons]
    refine List.Forall₂.cons ?_ (applyArchive_forall2 ids xs)
    by_cases hx : ids.contains x.id
    · rw [if_pos hx]
      exact Or.inr ⟨rfl, by simpa using hx⟩
    · rw [if_neg hx]
      exact Or.inl rfl

/-- C8: the clean transition selects only `extracted` sessions whose
anchor `semantic_extracted_at` is strictly more than 48 hours old (a
session 10 hours in is never picked; one 49 hours in passes the filter),
and the archive transition selects only `cleaned` sessions more than
48 + 24 = 72 hours past the same anchor, setting `status = 'archived'`
and mutating nothing else. -/
theorem archiver_dwell_times (sessions : List Session) (now : Int)
    (s : Session) (_hmem : s ∈ sessions) :
    (s ∈ cleanSelect sessions now →
      s.status = "extracted" ∧
        (48 : Int) * HOUR_MS < now - s.semantic_extracted_at) ∧
    (now - s.semantic_extracted_at = 10 * HOUR_MS →
      s ∉ cleanSelect sessions now) ∧
    (s.status = "extracted" → now - s.semantic_extracted_at = 49 * HOUR_MS →
      (s.status = "extracted" ∧
        s.semantic_extracted_at < now - PROCESS_TO_CLEAN_HOURS * HOUR_MS)) ∧
    (s ∈ archiveSelect sessions now →
      s.status = "cleaned" ∧
        (72 : Int) * HOUR_MS < now - s.semantic_extracted_at) ∧
    List.Forall₂ (fun t s0 => t = s0 ∨
      (t = { s0 with status := "archived" } ∧
        s0.id ∈ (archiveSelect sessions now).map Session.id))
      (applyArchive sessions now) sessions := by
  refine ⟨?_, ?_, ?_, ?_, ?_⟩
  · intro hsel
    have hf := List.mem_of_mem_take hsel
    have := List.mem_filter.mp hf
    obtain ⟨-, hb⟩ := this
    simp only [Bool.and_eq_true, decide_eq_true_eq] at hb
    refine ⟨hb.1, ?_⟩
    have := hb.2
    rw [show PROCESS_TO_CLEAN_HOURS = (48 : Int) from rfl] at this
    omega
  · intro hage hsel
    have hf := List.mem_of_mem_take hsel
    have := (List.mem_filter.mp hf).2
    simp only [Bool.and_eq_true, decide_eq_true_eq] at this
    have h2 := this.2
    rw [show PROCESS_TO_CLEAN_HOURS = (48 : Int) from rfl] at h2
    have hpos : (0 : Int) < HOUR_MS := by norm_num [HOUR_MS]
    nlinarith [h2, hage, hpos]
  · intro hst hage
    refine ⟨hst, ?_⟩
    rw [show PROCESS_TO_CLEAN_HOURS = (48 : Int) from rfl]
    have hpos : (0 : Int) < HOUR_MS := by norm_num [HOUR_MS]
    nlinarith [hage, hpos]
  · intro hsel
    have hf := List.mem_of_mem_take hsel
    have := (List.mem_filter.mp hf).2
    simp only [Bool.and_eq_true, decide_eq_true_eq] at this
    refine ⟨this.1, ?_⟩
    have h2 := this.2
    rw [show PROCESS_TO_CLEAN_HOURS = (48 : Int) from rfl,
      show CLEAN_TO_ARCHIVE_HOURS = (24 : Int) from rfl] at h2
    omega
  · rw [applyArchive]
    exact applyArchive_forall2 ((archiveSelect sessions now).map Session.id) sessions

/-- C8, witness: a 49-hour-old extracted session is eligible for the
clean transition, a 10-hour-old one is not picked up, and a 73-hour-old
cleaned session is selected for archiving and only its status changes. -/
theorem archiver_dwell_times_witness :
    ((⟨1, "extracted", 0, "raw", "p", 0⟩ : Session) ∈
        cleanSelect [⟨1, "extracted", 0, "raw", "p", 0⟩] (49 * HOUR_MS) →
      (⟨1, "extracted", 0, "raw", "p", 0⟩ : Session).status = "extracted" ∧
        (48 : Int) * HOUR_MS <
          49 * HOUR_MS - (⟨1, "extracted", 0, "raw", "p", 0⟩ : Session).semantic_extracted_at) ∧
    (49 * HOUR_MS - (⟨1, "extracted", 0, "raw", "p", 0⟩ : Session).semantic_extracted_at =
        10 * HOUR_MS →
      (⟨1, "extracted", 0, "raw", "p", 0⟩ : Session) ∉
        cleanSelect [⟨1, "extracted", 0, "raw", "p", 0⟩] (49 * HOUR_MS)) ∧
    ((⟨1, "extracted", 0, "raw", "p", 0⟩ : Session).status = "extracted" →
      49 * HOUR_MS - (⟨1, "extracted", 0, "raw", "p", 0⟩ : Session).semantic_extracted_at =
        49 * HOUR_MS →
      ((⟨1, "extracted", 0, "raw", "p", 0⟩ : Session).status = "extracted" ∧
        (⟨1, "extracted", 0, "raw", "p", 0⟩ : Session).semantic_extracted_at <
          49 * HOUR_MS - PROCESS_TO_CLEAN_HOURS * HOUR_MS)) ∧
    ((⟨1, "extracted", 0, "raw", "p", 0⟩ : Session) ∈
        archiveSelect [⟨1, "extracted", 0, "raw", "p", 0⟩] (49 * HOUR_MS) →
      (⟨1, "extracted", 0, "raw", "p", 0⟩ : Session).status = "cleaned" ∧
        (72 : Int) * HOUR_MS <
          49 * HOUR_MS - (⟨1, "extracted", 0, "raw", "p", 0⟩ : Session).semantic_extracted_at) ∧
    List.Forall₂ (fun t s0 => t = s0 ∨
      (t = { s0 with status := "archived" } ∧
        s0.id ∈ (archiveSelect [⟨1, "extracted", 0, "raw", "p", 0⟩] (49 * HOUR_MS)).map
          Session.id))
      (applyArchive [⟨1, "extracted", 0, "raw", "p", 0⟩] (49 * HOUR_MS))
      [⟨1, "extracted", 0, "raw", "p", 0⟩] :=
  archiver_dwell_times [⟨1, "extracted", 0, "raw", "p", 0⟩] (49 * HOUR_MS)
    ⟨1, "extracted", 0, "raw", "p", 0⟩ (by simp)

/-! ### Archiver `extractSummary`: topic extraction -/

/-- `[^.!?\n]`, the topic-phrase character class. -/
def isTopicChar (c : Char) : Bool :=
  !(c = '.' || c = '!' || c = '?' || c = '\n')

/-- Case-insensitive literal match (the `/i` flag): returns the
remainder after the literal. -/
def matchPrefixCI : List Char → List Char → Option (List Char)
  | [], rest => some rest
  | _ :: _, [] => none
  | p :: ps, c :: cs => if c.toLower = p then matchPrefixCI ps cs else none

/-- First alternative of an alternation that matches at this position
(the alternatives used here all start with distinct letters — or, for
`the`/`this`, diverge within the literal — so no cross-alternative
backtracking can arise); returns the matched literal and the remainder. -/
def tryAlts : List String → List Char → Option (String × List Char)
  | [], _ => none
  | a :: as, s =>
    match matchPrefixCI a.toList s with
    | some rest => some (a, rest)
    | none => tryAlts as s

/-- Greedy `[^.!?\n]{min,max}` at this position. -/
def capAttempt (rest : List Char) (minLen maxLen : Nat) :
    Option (List Char × List Char) :=
  let cap := (rest.takeWhile isTopicChar).take maxLen
  if minLen ≤ cap.length then some (cap, rest.drop cap.length) else none

/-- `\s+` followed by `[^.!?\n]{min,max}`: the whitespace run is consumed
greedily, giving characters back one by one if the class cannot reach its
minimum (regex backtracking); `ws` counts the whitespace still consumed. -/
def wsBacktrack (s : List Char) (minLen maxLen : Nat) : Nat →
    Option (List Char × List Char)
  | 0 => none
  | i + 1 =>
    match capAttempt (s.drop (i + 1)) minLen maxLen with
    | some r => some r
    | none => wsBacktrack s minLen maxLen i

/-- One match of
`/(?:working on|implementing|fixing|building|creating)\s+([^.!?\n]{10,50})/i`
at this position: capture group 1 and the remainder after the match. -/
def matchTopicP1At (s : List Char) : Option (String × List Char) :=
  match tryAlts ["working on", "implementing", "fixing", "building", "creating"] s with
  | none => none
  | some (_, rest) =>
    match wsBacktrack rest 10 50 (rest.takeWhile jsIsSpace).length with
    | some (cap, after) => some (String.mk cap, after)
    | none => none

/-- One match of
`/(?:the|this)\s+(feature|bug|issue|component|service|api|endpoint)\s+([^.!?\n]{5,30})/i`
at this position.  The code reads `match[1] || match[2]`, and group 1
(the keyword) is always nonempty, so the topic is the matched keyword. -/
def matchTopicP2At (s : List Char) : Option (String × List Char) :=
  match tryAlts ["the", "this"] s with
  | none => none
  | some (_, rest1) =>
    let k1 := (rest1.takeWhile jsIsSpace).length
    if k1 = 0 then none
    else
      let rest2 := rest1.drop k1
      match tryAlts ["feature", "bug", "issue", "component", "service", "api",
          "endpoint"] rest2 with
      | none => none
      | some (kw, rest3) =>
        match wsBacktrack rest3 5 30 (rest3.takeWhile jsIsSpace).length with
        | some (cap, after) =>
          let g1 := String.mk (rest2.take kw.length)
          let g2 := String.mk cap
          some (if g1 ≠ "" then g1 else g2, after)
        | none => none

/-- `String.prototype.matchAll` semantics for our patterns: scan left to
right, restart after each match (`lastIndex` advances past it); `fuel`
bounds the scan by the text length (every match consumes at least one
character). -/
def scanMatches (matchAt : List Char → Option (String × List Char)) :
    Nat → List Char → List String
  | 0, _ => []
  | _, [] => []
  | fuel + 1, c :: cs =>
    match matchAt (c :: cs) with
    | some (cap, after) => cap :: scanMatches matchAt fuel after
    | none => scanMatches matchAt fuel cs

/-- All pattern-1 topic captures of the content, in order. -/
def topicMatches1 (content : String) : List String :=
  scanMatches matchTopicP1At content.toList.length content.toList

/-- All pattern-2 topic captures of the content, in order. -/
def topicMatches2 (content : String) : List String :=
  scanMatches matchTopicP2At content.toList.length content.toList

/-- The inner loop of the topic extraction: trim each capture, push it
when nonempty and new, and break out of *this pattern's* matches once the
list has reached 10 — the check runs after the push. -/
def pushTopics : List String → List String → List String
  | [], topics => topics
  | m :: ms, topics =>
    let topic := jsTrim m
    if topic ≠ "" && !topics.contains topic then
      let topics2 := topics ++ [topic]
      if 10 ≤ topics2.length then topics2 else pushTopics ms topics2
    else pushTopics ms topics

/-- The `topics` component of the archiver's `extractSummary`: the two
topic patterns applied in order, each through the capped push loop (the
other summary fields do not feed back into the topics). -/
def extractSummaryTopics (content : String) : List String :=
  pushTopics (topicMatches2 content) (pushTopics (topicMatches1 content) [])

/-- One pattern's push loop grows the list to at most
`max (start + 1) 10` entries. -/
theorem pushTopics_length_le : ∀ (ms topics : List String),
    (pushTopics ms topics).length ≤ max (topics.length + 1) 10
  | [], topics => by
    rw [pushTopics]
    exact le_max_of_le_left (Nat.le_succ _)
  | m :: ms, topics => by
    rw [pushTopics]
    by_cases hc : (jsTrim m ≠ "" && !topics.contains (jsTrim m)) = true
    · rw [if_pos hc]
      by_cases hlen : 10 ≤ topics.length + 1
      · rw [if_pos (by simpa using hlen)]
        simp only [List.length_append, List.length_singleton]
        exact le_max_left _ _
      · rw [if_neg (by simpa using hlen)]
        refine le_trans (pushTopics_length_le ms _) ?_
        simp only [List.length_append, List.length_singleton]
        have h10 : topics.length + 1 + 1 ≤ 10 := by omega
        rw [max_eq_right (le_trans h10 (le_refl 10)), max_eq_right (by omega)]
    · rw [if_neg hc]
      exact pushTopics_length_le ms topics

/-- C10, amended: the summary's key-topic list holds at most 11 entries —
each pattern's loop stops once 10 is reached, but the check runs after
the push, so the second pattern can add an eleventh topic. -/
theorem extractSummary_topics_le_eleven (content : String) :
    (extractSummaryTopics content).length ≤ 11 := by
  rw [extractSummaryTopics]
  have h1 : (pushTopics (topicMatches1 content) []).length ≤ 10 := by
    have := pushTopics_length_le (topicMatches1 content) []
    simpa using this
  have h2 := pushTopics_length_le (topicMatches2 content)
    (pushTopics (topicMatches1 content) [])
  omega

set_option maxRecDepth 40000 in
/-- C10, counterexample: on content with ten distinct pattern-1 topics
followed by a pattern-2 phrase, `extractSummary` collects *eleven*
topics, because the `>= 10` break is checked only after a push and only
within one pattern's match loop. -/
theorem extractSummary_topics_eleven_refuted :
    extractSummaryTopics ("working on aaaaaaaaaa. working on bbbbbbbbbb. " ++
        "working on cccccccccc. working on dddddddddd. working on eeeeeeeeee. " ++
        "working on ffffffffff. working on gggggggggg. working on hhhhhhhhhh. " ++
        "working on iiiiiiiiii. working on jjjjjjjjjj. the feature abcdef.") =
      ["aaaaaaaaaa", "bbbbbbbbbb", "cccccccccc", "dddddddddd", "eeeeeeeeee",
        "ffffffffff", "gggggggggg", "hhhhhhhhhh", "iiiiiiiiii", "jjjjjjjjjj",
        "feature"] ∧
    ¬ (extractSummaryTopics ("working on aaaaaaaaaa. working on bbbbbbbbbb. " ++
        "working on cccccccccc. working on dddddddddd. working on eeeeeeeeee. " ++
        "working on ffffffffff. working on gggggggggg. working on hhhhhhhhhh. " ++
        "working on iiiiiiiiii. working on jjjjjjjjjj. the feature abcdef.")).length
      ≤ 10 := by
  constructor
  · decide
  · decide

/-! ### Extraction Router (services/extractionSorter):
`BUCKET_CONFIG`, `checkDuplicate`, `insertToTable`, `markStaging`,
`processStagingItems` -/

/-- JS `a || 'default'` on a possibly-missing string column. -/
def jsOrElse : Option String → String → String
  | none, d => d
  | some s, d => if s = "" then d else s

/-- A staging row's JSON `metadata`: the audit fields the router writes
plus the other keys (`extra`) that the spread preserves. -/
structure StagingMeta where
  error : Option String
  error_stage : Option String
  error_table : Option String
  error_at : Option String
  extra : List (String × String)
  deriving DecidableEq, Repr

/-- The fields of a `dev_ai_smart_extractions` staging row the router
reads and writes. -/
structure StagingItem where
  id : Nat
  status : String
  bucket : String
  title : Option String
  content : Option String
  priority : Option String
  project_id : Option String
  session_id : Option String
  hash : Option String
  created_at : Nat
  updated_at : Option String
  metadata : StagingMeta
  deriving DecidableEq, Repr

/-- A bucket's destination table and initial status. -/
structure BucketRoute where
  table : String
  status : String
  deriving DecidableEq, Repr

/-- The complete `BUCKET_CONFIG` object (20 buckets), in source order. -/
def bucketConfigList : List (String × BucketRoute) :=
  [("Bugs Open",           ⟨"dev_ai_bugs",        "open"⟩),
   ("Bugs Fixed",          ⟨"dev_ai_bugs",        "fixed"⟩),
   ("Todos",               ⟨"dev_ai_todos",       "unassigned"⟩),
   ("Journal",             ⟨"dev_ai_journal",     "pending"⟩),
   ("Work Log",            ⟨"dev_ai_journal",     "pending"⟩),
   ("Decisions",           ⟨"dev_ai_decisions",   "pending"⟩),
   ("Lessons",             ⟨"dev_ai_lessons",     "pending"⟩),
   ("System Breakdown",    ⟨"dev_ai_docs",        "pending"⟩),
   ("How-To Guide",        ⟨"dev_ai_docs",        "pending"⟩),
   ("Schematic",           ⟨"dev_ai_docs",        "pending"⟩),
   ("Reference",           ⟨"dev_ai_docs",        "pending"⟩),
   ("Naming Conventions",  ⟨"dev_ai_conventions", "active"⟩),
   ("File Structure",      ⟨"dev_ai_conventions", "active"⟩),
   ("Database Patterns",   ⟨"dev_ai_conventions", "active"⟩),
   ("API Patterns",        ⟨"dev_ai_conventions", "active"⟩),
   ("Component Patterns",  ⟨"dev_ai_conventions", "active"⟩),
   ("Ideas",               ⟨"dev_ai_knowledge",   "pending"⟩),
   ("Quirks & Gotchas",    ⟨"dev_ai_knowledge",   "pending"⟩),
   ("Other",               ⟨"dev_ai_knowledge",   "pending"⟩),
   ("Snippets",            ⟨"dev_ai_snippets",    "pending"⟩)]

/-- The property names the plain `BUCKET_CONFIG` object literal inherits
from `Object.prototype`.  A JS property read falls back to these when the
key is not an own key, and every one of them is truthy (a function, or
the prototype object itself for the `__proto__` accessor). -/
def OBJECT_PROTOTYPE_KEYS : List String :=
  ["constructor", "hasOwnProperty", "isPrototypeOf",
   "propertyIsEnumerable", "toLocaleString", "toString", "valueOf",
   "__defineGetter__", "__defineSetter__", "__lookupGetter__",
   "__lookupSetter__", "__proto__"]

/-- What `BUCKET_CONFIG[item.bucket]` can yield: an own key's route, or a
truthy member inherited from `Object.prototype` — a value whose `.table`
and `.status` reads give `undefined`. -/
inductive BucketLookup where
  | route (config : BucketRoute)
  | protoMember
  deriving DecidableEq, Repr

/-- `BUCKET_CONFIG[item.bucket]`: JS property access on the object
literal — an own key yields its route, a key naming an `Object.prototype`
member yields that (truthy) inherited member, anything else is
`undefined`. -/
def BUCKET_CONFIG (bucket : String) : Option BucketLookup :=
  match bucketConfigList.find? (fun p => p.1 = bucket) with
  | some p => some (.route p.2)
  | none =>
    if bucket ∈ OBJECT_PROTOTYPE_KEYS then some .protoMember else none

/-- The `baseMetadata` written on insert: the staging metadata spread
plus `hash`, `source: 'jason'`, `staging_id`. -/
structure RowMeta where
  base : StagingMeta
  hash : Option String
  source : String
  staging_id : Nat
  deriving DecidableEq, Repr

/-- The union of the destination-table payload shapes of
`insertToTable`; each table's case sets its own fields and leaves the
rest absent. -/
structure Payload where
  title : Option String
  name : Option String
  description : Option String
  content : Option String
  context : Option String
  summary : Option String
  entry_type : Option String
  doc_type : Option String
  convention_type : Option String
  knowledge_type : Option String
  snippet_type : Option String
  bucket : Option String
  status : String
  priority : Option String
  severity : Option String
  project_id : Option String
  source_session_id : Option String
  metadata : RowMeta
  deriving DecidableEq, Repr

/-- A payload with only `status` and `metadata` set. -/
def emptyPayload (status : String) (meta : RowMeta) : Payload :=
  ⟨none, none, none, none, none, none, none, none, none, none, none, none,
    status, none, none, none, none, meta⟩

/-- `item.title || item.content?.substring(0, 200) || d`. -/
def titleOf (item : StagingItem) (d : String) : String :=
  jsOrElse item.title (jsOrElse (item.content.map (fun c => c.take 200)) d)

/-- `bucket.toLowerCase().replace(/\s+/g, '_')`: lowercase with each
whitespace run collapsed to one underscore. -/
def collapseWsAux : Bool → List Char → List Char
  | _, [] => []
  | prevWs, c :: cs =>
    if jsIsSpace c then
      if prevWs then collapseWsAux true cs
      else '_' :: collapseWsAux true cs
    else c :: collapseWsAux false cs

/-- The `doc_type`/`convention_type`/`knowledge_type` normalization of a
bucket name. -/
def bucketTypeName (bucket : String) : String :=
  String.mk (collapseWsAux false (jsToLower bucket).toList)

/-- `bucketTypeName` with the `|| d` falsy fallback. -/
def typeNameOr (bucket d : String) : String :=
  if bucketTypeName bucket = "" then d else bucketTypeName bucket

/-- The payload-building switch of `insertToTable`; the default case is
the `No handler` error. -/
def buildPayload (table status : String) (item : StagingItem) :
    Except String Payload :=
  let baseMetadata : RowMeta := ⟨item.metadata, item.hash, "jason", item.id⟩
  match table with
  | "dev_ai_todos" =>
    .ok { emptyPayload status baseMetadata with
      title := some (titleOf item "Untitled"),
      description := item.content,
      priority := some (jsOrElse item.priority "medium"),
      project_id := item.project_id,
      source_session_id := item.session_id }
  | "dev_ai_bugs" =>
    .ok { emptyPayload status baseMetadata with
      title := some (titleOf item "Untitled"),
      description := item.content,
      severity := some (jsOrElse item.priority "medium"),
      project_id := item.project_id,
      source_session_id := item.session_id }
  | "dev_ai_journal" =>
    .ok { emptyPayload status baseMetadata with
      title := some (titleOf item "Journal Entry"),
      content := some (jsOrElse item.content ""),
      entry_type := some (if item.bucket = "Work Log" then "worklog" else "journal"),
      bucket := some item.bucket,
      project_id := item.project_id,
      source_session_id := item.session_id }
  | "dev_ai_decisions" =>
    .ok { emptyPayload status baseMetadata with
      title := some (titleOf item "Decision"),
      context := item.content,
      project_id := item.project_id,
      source_session_id := item.session_id }
  | "dev_ai_lessons" =>
    .ok { emptyPayload status baseMetadata with
      title := some (titleOf item "Lesson Learned"),
      description := item.content,
      project_id := item.project_id,
      source_session_id := item.session_id }
  | "dev_ai_docs" =>
    .ok { emptyPayload status baseMetadata with
      title := some (titleOf item "Document"),
      content := item.content,
      doc_type := some (typeNameOr item.bucket "reference"),
      bucket := some item.bucket,
      project_id := item.project_id,
      source_session_id := item.session_id }
  | "dev_ai_conventions" =>
    .ok { emptyPayload status baseMetadata with
      name := some (titleOf item "Convention"),
      description := item.content,
      convention_type := some (typeNameOr item.bucket "general"),
      bucket := some item.bucket,
      project_id := item.project_id,
      source_session_id := item.session_id }
  | "dev_ai_knowledge" =>
    .ok { emptyPayload status baseMetadata with
      title := some (titleOf item "Knowledge Item"),
      content := item.content,
      summary := item.content.map (fun c => c.take 500),
      knowledge_type := some (typeNameOr item.bucket "general"),
      bucket := some item.bucket,
      project_id := item.project_id,
      source_session_id := item.session_id }
  | "dev_ai_snippets" =>
    .ok { emptyPayload status baseMetadata with
      content := some (jsOrElse item.content ""),
      context := some (jsOrElse item.title "Extracted snippet"),
      snippet_type := some "extracted",
      bucket := some item.bucket,
      project_id := item.project_id,
      source_session_id := item.session_id }
  | _ => .error ("No handler for table: " ++ table)

/-- The store as the router sees it: the staging table plus the
destination tables (insertion-ordered rows). -/
structure World where
  staging : List StagingItem
  tables : List (String × List Payload)
  deriving DecidableEq, Repr

/-- Rows registered under a table name (empty when absent). -/
def getRows (tables : List (String × List Payload)) (t : String) :
    List Payload :=
  match tables.find? (fun p => p.1 = t) with
  | some p => p.2
  | none => []

/-- Rows of a destination table (empty when absent). -/
def getTable (w : World) (t : String) : List Payload :=
  getRows w.tables t

/-- Append an inserted row to a destination table. -/
def putRow (w : World) (t : String) (row : Payload) : World :=
  if w.tables.any (fun p => p.1 = t) then
    let newTables :=
      w.tables.map (fun p => if p.1 = t then (p.1, p.2 ++ [row]) else p)
    { w with tables := newTables }
  else { w with tables := w.tables ++ [(t, [row])] }

/-- The outcomes of the store calls a router cycle performs: whether the
dedupe `SELECT` errors and whether the `INSERT` fails for a given
staging id, plus the current timestamp. -/
structure RouterEnv where
  now : String
  dedupeErr : Nat → Bool
  insertErr : Nat → Option String

/-- `checkDuplicate`'s result object. -/
structure DupeResult where
  isDupe : Bool
  error : Option String
  deriving DecidableEq, Repr

/-- `checkDuplicate(table, hash)` applied to the fetched window (`none`
models a failed query, which is swallowed — the `error` field it returns
is always `null`): duplicate iff some fetched row has
`metadata.hash === hash`. -/
def checkDuplicate (fetched : Option (List Payload)) (hash : Option String) :
    DupeResult :=
  match hash with
  | none => ⟨false, none⟩
  | some h =>
    if h = "" then ⟨false, none⟩
    else
      match fetched with
      | none => ⟨false, none⟩
      | some data => ⟨data.any (fun row => row.metadata.hash = some h), none⟩

/-- The error details `markStaging` may receive. -/
structure ErrorDetails where
  error : String
  error_stage : Option String
  error_table : Option String
  deriving DecidableEq, Repr

/-- The row update `markStaging` applies to the matching id: set the
status and `updated_at`, and on an error append the audit fields into the
metadata (spreading the previously stored metadata, truncating the
message to 500 characters, defaulting the stage to `'unknown'`). -/
def markStagingUpdate (current : StagingMeta) (status : String)
    (errorDetails : Option ErrorDetails) (now : String)
    (s : StagingItem) : StagingItem :=
  match errorDetails with
  | some d =>
    if status = "error" then
      let tableField : Option String := match d.error_table with
        | some t => if t = "" then none else some t
        | none => none
      let newMeta : StagingMeta := ⟨some (d.error.take 500),
        some (jsOrElse d.error_stage "unknown"), tableField, some now,
        current.extra⟩
      { s with status := status, updated_at := some now, metadata := newMeta }
    else { s with status := status, updated_at := some now }
  | none => { s with status := status, updated_at := some now }

/-- `markStaging(id, status, errorDetails)`: read the current metadata of
the row, then update every row with that id. -/
def markStaging (w : World) (id : Nat) (status : String)
    (errorDetails : Option ErrorDetails) (now : String) : World :=
  let current : StagingMeta :=
    match w.staging.find? (fun s0 => s0.id = id) with
    | some s0 => s0.metadata
    | none => ⟨none, none, none, none, []⟩
  { w with staging := w.staging.map (fun s =>
      if s.id = id then markStagingUpdate current status errorDetails now s
      else s) }

/-- How one staging item left the cycle. -/
inductive StatKind
  | processed
  | duplicate
  | errored
  deriving DecidableEq, Repr

/-- The body of the `processStagingItems` loop for one fetched item:
bucket lookup (unknown → terminal error with stage `bucket_lookup`),
best-effort dedupe when the item has a hash (the dedupe `SELECT` is
limited to 100 rows; a failed query is treated as no duplicate), then
payload build and insert (failure → terminal error with stage `insert`;
success → append the row and mark `processed`). -/
def processOne (env : RouterEnv) (w : World) (item : StagingItem) :
    World × StatKind :=
  match BUCKET_CONFIG item.bucket with
  | none =>
    (markStaging w item.id "error"
      (some ⟨"Unknown bucket: " ++ item.bucket, some "bucket_lookup", none⟩)
      env.now, .errored)
  | some .protoMember =>
    -- `config` is truthy but inherited: `config.table` and `config.status`
    -- are `undefined`, so the dedupe SELECT (on the undefined table) fails
    -- and is swallowed, and the insert switch falls through to its default
    -- case, whose template stringifies `undefined`.
    let hashTruthy : Bool := match item.hash with
      | some h => h ≠ ""
      | none => false
    if hashTruthy then
      let dupe := checkDuplicate none item.hash
      if dupe.error ≠ none then
        (markStaging w item.id "error"
          (some ⟨dupe.error.getD "", some "dedupe", none⟩) env.now, .errored)
      else if dupe.isDupe then
        (markStaging w item.id "duplicate" none env.now, .duplicate)
      else
        (markStaging w item.id "error"
          (some ⟨"No handler for table: " ++ "undefined", some "insert",
            none⟩) env.now, .errored)
    else
      (markStaging w item.id "error"
        (some ⟨"No handler for table: " ++ "undefined", some "insert",
          none⟩) env.now, .errored)
  | some (.route config) =>
    let hashTruthy : Bool := match item.hash with
      | some h => h ≠ ""
      | none => false
    if hashTruthy then
      let dupe := checkDuplicate
        (if env.dedupeErr item.id then none
          else some ((getTable w config.table).take 100)) item.hash
      if dupe.error ≠ none then
        (markStaging w item.id "error"
          (some ⟨dupe.error.getD "", some "dedupe", some config.table⟩)
          env.now, .errored)
      else if dupe.isDupe then
        (markStaging w item.id "duplicate" none env.now, .duplicate)
      else
        match buildPayload config.table config.status item with
        | .error e =>
          (markStaging w item.id "error"
            (some ⟨e, some "insert", some config.table⟩) env.now, .errored)
        | .ok payload =>
          match env.insertErr item.id with
          | some msg =>
            (markStaging w item.id "error"
              (some ⟨msg, some "insert", some config.table⟩) env.now, .errored)
          | none =>
            (markStaging (putRow w config.table payload) item.id "processed"
              none env.now, .processed)
    else
      match buildPayload config.table config.status item with
      | .error e =>
        (markStaging w item.id "error"
          (some ⟨e, some "insert", some config.table⟩) env.now, .errored)
      | .ok payload =>
        match env.insertErr item.id with
        | some msg =>
          (markStaging w item.id "error"
            (some ⟨msg, some "insert", some config.table⟩) env.now, .errored)
        | none =>
          (markStaging (putRow w config.table payload) item.id "processed"
            none env.now, .processed)

/-- The per-cycle counters (`byTable` is not needed by any claim). -/
structure RouterStats where
  processed : Nat
  errors : Nat
  duplicates : Nat
  deriving DecidableEq, Repr

/-- One fold step of the cycle: process the item and bump the matching
counter. -/
def routerStep (env : RouterEnv) (acc : World × RouterStats)
    (item : StagingItem) : World × RouterStats :=
  match processOne env acc.1 item with
  | (w', .processed) => (w', { acc.2 with processed := acc.2.processed + 1 })
  | (w', .duplicate) => (w', { acc.2 with duplicates := acc.2.duplicates + 1 })
  | (w', .errored) => (w', { acc.2 with errors := acc.2.errors + 1 })

/-- Ordered insertion by `created_at` (ascending). -/
def insertByCreated (x : StagingItem) : List StagingItem → List StagingItem
  | [] => [x]
  | y :: ys =>
    if x.created_at ≤ y.created_at then x :: y :: ys
    else y :: insertByCreated x ys

/-- Insertion sort by `created_at` ascending, modelling the batch
query's `order('created_at', ascending: true)`. -/
def sortByCreated : List StagingItem → List StagingItem
  | [] => []
  | x :: xs => insertByCreated x (sortByCreated xs)

/-- The cycle's batch query: `status = 'pending'`, ordered by
`created_at` ascending, limited to `limit` (default 50 in the source). -/
def selectBatch (w : World) (limit : Nat) : List StagingItem :=
  (sortByCreated (w.staging.filter (fun s => s.status = "pending"))).take limit

/-- `processStagingItems(limit)`: fetch the pending batch and process it
sequentially (the in-memory overlap guard is outside this single-cycle
model; a failed batch fetch is not modelled). -/
def processStagingItems (env : RouterEnv) (w : World) (limit : Nat) :
    World × RouterStats :=
  (selectBatch w limit).foldl (routerStep env) (w, ⟨0, 0, 0⟩)

/-! ### Router support lemmas -/

/-- The `markStaging` row update never changes the row's id. -/
theorem markStagingUpdate_id (current : StagingMeta) (status : String)
    (d : Option ErrorDetails) (now : String) (s : StagingItem) :
    (markStagingUpdate current status d now s).id = s.id := by
  cases d with
  | none => rfl
  | some d =>
    by_cases h : status = "error" <;> simp [markStagingUpdate, h]

/-- The `markStaging` row update always writes the given status. -/
theorem markStagingUpdate_status (current : StagingMeta) (status : String)
    (d : Option ErrorDetails) (now : String) (s : StagingItem) :
    (markStagingUpdate current status d now s).status = status := by
  cases d with
  | none => rfl
  | some d =>
    by_cases h : status = "error" <;> simp [markStagingUpdate, h]

/-- Updating the rows with a given id rewrites what `find?` returns for
that id (the update must preserve ids). -/
theorem find_map_update (id : Nat) (u : StagingItem → StagingItem)
    (hu : ∀ s, (u s).id = s.id) :
    ∀ (l : List StagingItem) (item : StagingItem),
    l.find? (fun s => s.id = id) = some item →
    (l.map (fun s => if s.id = id then u s else s)).find?
      (fun s => s.id = id) = some (u item)
  | [], item, h => by simp at h
  | x :: xs, item, h => by
    rw [List.map_cons]
    by_cases hx : x.id = id
    · rw [List.find?_cons_of_pos _ (by simpa using hx)] at h
      have hxi : x = item := by simpa using h
      subst hxi
      rw [if_pos hx]
      exact List.find?_cons_of_pos _ (by simp [hu x, hx])
    · rw [List.find?_cons_of_neg _ (by simpa using hx)] at h
      rw [if_neg hx, List.find?_cons_of_neg _ (by simpa using hx)]
      exact find_map_update id u hu xs item h

/-- Updating the rows with one id leaves `find?` for any other id
unchanged. -/
theorem find_map_update_other (id j : Nat) (u : StagingItem → StagingItem)
    (hu : ∀ s, (u s).id = s.id) (hne : j ≠ id) :
    ∀ (l : List StagingItem),
    (l.map (fun s => if s.id = id then u s else s)).find?
      (fun s => s.id = j) = l.find? (fun s => s.id = j)
  | [] => rfl
  | x :: xs => by
    rw [List.map_cons]
    by_cases hx : x.id = j
    · have hxid : ¬ x.id = id := fun h => hne (hx ▸ h.symm ▸ rfl)
      rw [if_neg hxid, List.find?_cons_of_pos _ (by simpa using hx),
        List.find?_cons_of_pos _ (by simpa using hx)]
    · by_cases hxi : x.id = id
      · rw [if_pos hxi,
          List.find?_cons_of_neg _ (by simp [hu x, hx]),
          List.find?_cons_of_neg _ (by simpa using hx)]
        exact find_map_update_other id j u hu hne xs
      · rw [if_neg hxi,
          List.find?_cons_of_neg _ (by simpa using hx),
          List.find?_cons_of_neg _ (by simpa using hx)]
        exact find_map_update_other id j u hu hne xs

/-- `markStaging` does not touch the destination tables. -/
theorem markStaging_tables (w : World) (id : Nat) (status : String)
    (d : Option ErrorDetails) (now : String) :
    (markStaging w id status d now).tables = w.tables := rfl

/-- `putRow` does not touch the staging table. -/
theorem putRow_staging (w : World) (t : String) (row : Payload) :
    (putRow w t row).staging = w.staging := by
  rw [putRow]
  by_cases h : w.tables.any (fun p => p.1 = t) <;> simp [h]

/-- After `markStaging`, the row with the targeted id carries the given
status. -/
theorem markStaging_find_self (w : World) (id : Nat) (status : String)
    (d : Option ErrorDetails) (now : String) (item : StagingItem)
    (hfind : w.staging.find? (fun s => s.id = id) = some item) :
    (markStaging w id status d now).staging.find? (fun s => s.id = id) =
      some (markStagingUpdate item.metadata status d now item) := by
  rw [markStaging]
  simp only [hfind]
  exact find_map_update id _ (markStagingUpdate_id item.metadata status d now)
    w.staging item hfind

/-- `markStaging` leaves every other id's row unchanged. -/
theorem markStaging_find_other (w : World) (id : Nat) (status : String)
    (d : Option ErrorDetails) (now : String) (j : Nat) (hne : j ≠ id) :
    (markStaging w id status d now).staging.find? (fun s => s.id = j) =
      w.staging.find? (fun s => s.id = j) := by
  rw [markStaging]
  exact find_map_update_other id j _ (markStagingUpdate_id _ status d now) hne
    w.staging

/-- `markStaging` preserves the id sequence of the staging table. -/
theorem markStaging_ids (w : World) (id : Nat) (status : String)
    (d : Option ErrorDetails) (now : String) :
    (markStaging w id status d now).staging.map StagingItem.id =
      w.staging.map StagingItem.id := by
  rw [markStaging]
  simp only [List.map_map]
  apply List.map_congr_left
  intro s _
  by_cases hs : s.id = id
  · simp [Function.comp, hs, markStagingUpdate_id]
  · simp [Function.comp, hs]

/-- Bumping the matching table entry appends to its rows when the entry
exists. -/
theorem getRows_map_append (t : String) (row : Payload) :
    ∀ (tables : List (String × List Payload)), (∃ p ∈ tables, p.1 = t) →
    getRows (tables.map (fun p => if p.1 = t then (p.1, p.2 ++ [row]) else p)) t =
      getRows tables t ++ [row]
  | [], h => by simp at h
  | q :: qs, h => by
    by_cases hq : q.1 = t
    · rw [List.map_cons, if_pos hq, getRows, getRows,
        List.find?_cons_of_pos _ (by simpa using hq),
        List.find?_cons_of_pos _ (by simpa using hq)]
    · obtain ⟨p0, hp0, hp0t⟩ := h
      rcases List.mem_cons.mp hp0 with rfl | hmem
      · exact absurd hp0t hq
      · rw [List.map_cons, if_neg hq, getRows, getRows,
          List.find?_cons_of_neg _ (by simpa using hq),
          List.find?_cons_of_neg _ (by simpa using hq)]
        exact getRows_map_append t row qs ⟨p0, hmem, hp0t⟩

/-- Inserting appends the row to the target table's row list. -/
theorem putRow_getTable (w : World) (t : String) (row : Payload) :
    getTable (putRow w t row) t = getTable w t ++ [row] := by
  rw [putRow]
  by_cases h : w.tables.any (fun p => p.1 = t)
  · rw [if_pos h]
    rw [List.any_eq_true] at h
    obtain ⟨p0, hp0, hp0t⟩ := h
    exact getRows_map_append t row w.tables ⟨p0, hp0, by simpa using hp0t⟩
  · rw [if_neg h]
    simp only [getTable, getRows]
    have hnone : w.tables.find? (fun p => p.1 = t) = none := by
      rw [List.find?_eq_none]
      intro p hp hpt
      exact h (List.any_eq_true.mpr ⟨p, hp, hpt⟩)
    rw [List.find?_append, hnone]
    simp

/-- Every staging item routed through `processOne` ends in exactly one
`markStaging` call with a terminal status; the pre-state differs from the
input world at most in the destination tables. -/
theorem processOne_shape (env : RouterEnv) (w : World) (item : StagingItem) :
    ∃ (w0 : World) (st : String) (d : Option ErrorDetails),
      (processOne env w item).1 = markStaging w0 item.id st d env.now ∧
      w0.staging = w.staging ∧
      (st = "processed" ∨ st = "duplicate" ∨ st = "error") := by
  rw [processOne]
  split
  · exact ⟨w, "error", _, rfl, rfl, by simp⟩
  · unfold_let
    repeat' split
    all_goals first
      | exact ⟨w, "error", _, rfl, rfl, by simp⟩
      | exact ⟨w, "duplicate", none, rfl, rfl, by simp⟩
  · split
    · unfold_let
      repeat' split
      all_goals first
        | exact ⟨w, "error", _, rfl, rfl, by simp⟩
        | exact ⟨w, "duplicate", none, rfl, rfl, by simp⟩
        | exact ⟨putRow w _ _, "processed", none, rfl,
            putRow_staging _ _ _, by simp⟩
    · unfold_let
      rw [if_neg (by simp)]
      repeat' split
      all_goals first
        | exact ⟨w, "error", _, rfl, rfl, by simp⟩
        | exact ⟨putRow w _ _, "processed", none, rfl,
            putRow_staging _ _ _, by simp⟩

/-- A bucket that reaches an inherited `Object.prototype` member is
marked `error` at the insert stage with the `No handler` reason: the
truthy inherited lookup skips the unknown-bucket branch and the dedupe
SELECT failure is swallowed. -/
theorem processOne_proto (env : RouterEnv) (w : World) (item : StagingItem)
    (hB : BUCKET_CONFIG item.bucket = some BucketLookup.protoMember) :
    processOne env w item =
      (markStaging w item.id "error"
        (some ⟨"No handler for table: " ++ "undefined", some "insert", none⟩)
        env.now, StatKind.errored) := by
  rw [processOne, hB]
  dsimp only
  rcases hh : item.hash with _ | h
  · rw [if_neg (by simp)]
  · dsimp only
    by_cases hhe : h = ""
    · rw [if_neg (show ¬ (decide (h ≠ "") = true) by simp [hhe])]
    · rw [if_pos (show decide (h ≠ "") = true by simp [hhe]),
        checkDuplicate]
      rw [if_neg hhe]
      dsimp only
      rw [if_neg (show ¬ ((none : Option String) ≠ none) by simp)]
      rw [if_neg (show ¬ (false = true) by simp)]

/-! ### Claim C4: unknown buckets terminalize as error -/

/-- C4 (amended): there are exactly 20 configured bucket names; a staging
item whose bucket is outside them and is not an `Object.prototype`
property name gets no route and is marked `error` with
`error_stage = 'bucket_lookup'` and the explicit `Unknown bucket` reason
(prior metadata keys preserved); a bucket naming an `Object.prototype`
member instead passes the truthy inherited lookup and is marked `error`
with `error_stage = 'insert'` and reason `No handler for table:
undefined`. In both cases nothing is inserted into any destination
table. -/
theorem router_unknown_bucket (env : RouterEnv) (w : World)
    (item : StagingItem)
    (hb : item.bucket ∉ bucketConfigList.map Prod.fst)
    (hfind : w.staging.find? (fun s => s.id = item.id) = some item) :
    (bucketConfigList.map Prod.fst).length = 20 ∧
    (item.bucket ∉ OBJECT_PROTOTYPE_KEYS →
      BUCKET_CONFIG item.bucket = none ∧
      (processOne env w item).1.tables = w.tables ∧
      (processOne env w item).2 = StatKind.errored ∧
      ∃ s', (processOne env w item).1.staging.find?
          (fun s => s.id = item.id) = some s' ∧
        s'.status = "error" ∧
        s'.metadata.error_stage = some "bucket_lookup" ∧
        s'.metadata.error =
          some (("Unknown bucket: " ++ item.bucket).take 500) ∧
        s'.metadata.error_table = none ∧
        s'.metadata.extra = item.metadata.extra) ∧
    (item.bucket ∈ OBJECT_PROTOTYPE_KEYS →
      BUCKET_CONFIG item.bucket = some BucketLookup.protoMember ∧
      (processOne env w item).1.tables = w.tables ∧
      (processOne env w item).2 = StatKind.errored ∧
      ∃ s', (processOne env w item).1.staging.find?
          (fun s => s.id = item.id) = some s' ∧
        s'.status = "error" ∧
        s'.metadata.error_stage = some "insert" ∧
        s'.metadata.error =
          some (("No handler for table: " ++ "undefined").take 500) ∧
        s'.metadata.error_table = none ∧
        s'.metadata.extra = item.metadata.extra) := by
  have hfn : bucketConfigList.find? (fun p => p.1 = item.bucket) = none := by
    rw [List.find?_eq_none]
    intro p hp hpt
    have hpt' : p.1 = item.bucket := by simpa using hpt
    exact hb (hpt' ▸ List.mem_map_of_mem Prod.fst hp)
  refine ⟨by decide, ?_, ?_⟩
  · intro hnp
    have hB : BUCKET_CONFIG item.bucket = none := by
      rw [BUCKET_CONFIG, hfn]
      exact if_neg hnp
    have hP : processOne env w item = (markStaging w item.id "error"
        (some ⟨"Unknown bucket: " ++ item.bucket, some "bucket_lookup", none⟩)
        env.now, StatKind.errored) := by
      rw [processOne, hB]
    refine ⟨hB, ?_, ?_, ?_⟩
    · rw [hP]
      rfl
    · rw [hP]
    · rw [hP]
      refine ⟨_, markStaging_find_self w item.id "error" _ env.now item hfind,
        ?_, ?_, ?_, ?_, ?_⟩ <;>
        simp [markStagingUpdate, jsOrElse]
  · intro hp
    have hB : BUCKET_CONFIG item.bucket = some BucketLookup.protoMember := by
      rw [BUCKET_CONFIG, hfn]
      exact if_pos hp
    have hP := processOne_proto env w item hB
    refine ⟨hB, ?_, ?_, ?_⟩
    · rw [hP]
      rfl
    · rw [hP]
    · rw [hP]
      refine ⟨_, markStaging_find_self w item.id "error" _ env.now item hfind,
        ?_, ?_, ?_, ?_, ?_⟩ <;>
        simp [markStagingUpdate, jsOrElse]

/-- Store-call outcomes where every dedupe `SELECT` and `INSERT` would
succeed. -/
def envProto : RouterEnv := ⟨"T", fun _ => false, fun _ => none⟩

/-- A staging row with the unconfigured bucket `Nonexistent`. -/
def nbItem : StagingItem :=
  ⟨7, "pending", "Nonexistent", none, none, none, none, none, none, 1,
    none, ⟨none, none, none, none, [("k", "v")]⟩⟩

/-- A store holding only that row. -/
def wNb : World := ⟨[nbItem], []⟩

/-- A staging row whose bucket names the inherited
`Object.prototype.toString`. -/
def protoItem : StagingItem :=
  ⟨9, "pending", "toString", some "t", none, none, none, none, none, 1,
    none, ⟨none, none, none, none, []⟩⟩

/-- A store holding only that row. -/
def wProto : World := ⟨[protoItem], []⟩

set_option maxRecDepth 4000 in
/-- C4, counterexample to the unconditional claim: the bucket `toString`
is not one of the 20 configured names, yet the JS lookup inherits the
truthy `Object.prototype.toString`, so the unknown-bucket branch is
skipped and the row errors at stage `insert` — not at stage
`bucket_lookup` (the witness exhibits the `No handler for table:
undefined` reason). -/
theorem router_unknown_bucket_refuted :
    "toString" ∉ bucketConfigList.map Prod.fst ∧
    BUCKET_CONFIG "toString" = some BucketLookup.protoMember ∧
    (processOne envProto wProto protoItem).1.tables = [] ∧
    (processOne envProto wProto protoItem).2 = StatKind.errored ∧
    ((processOne envProto wProto protoItem).1.staging.find?
        (fun s => s.id = 9)).map
        (fun s => (s.status, s.metadata.error_stage)) =
      some ("error", some "insert") ∧
    ¬ ((processOne envProto wProto protoItem).1.staging.find?
        (fun s => s.id = 9)).map (fun s => s.metadata.error_stage) =
      some (some "bucket_lookup") := by
  decide

/-- C4, witness: the `Nonexistent` bucket is marked `error` at stage
`bucket_lookup`, the `toString` bucket at stage `insert`; neither store
gains a destination row. -/
theorem router_unknown_bucket_witness :
    (bucketConfigList.map Prod.fst).length = 20 ∧
    (BUCKET_CONFIG "Nonexistent" = none ∧
      (processOne envProto wNb nbItem).1.tables = wNb.tables ∧
      (processOne envProto wNb nbItem).2 = StatKind.errored ∧
      ∃ s', (processOne envProto wNb nbItem).1.staging.find?
          (fun s => s.id = nbItem.id) = some s' ∧
        s'.status = "error" ∧
        s'.metadata.error_stage = some "bucket_lookup" ∧
        s'.metadata.error =
          some (("Unknown bucket: " ++ "Nonexistent").take 500) ∧
        s'.metadata.error_table = none ∧
        s'.metadata.extra = [("k", "v")]) ∧
    (BUCKET_CONFIG "toString" = some BucketLookup.protoMember ∧
      (processOne envProto wProto protoItem).1.tables = wProto.tables ∧
      (processOne envProto wProto protoItem).2 = StatKind.errored ∧
      ∃ s', (processOne envProto wProto protoItem).1.staging.find?
          (fun s => s.id = protoItem.id) = some s' ∧
        s'.status = "error" ∧
        s'.metadata.error_stage = some "insert" ∧
        s'.metadata.error =
          some (("No handler for table: " ++ "undefined").take 500) ∧
        s'.metadata.error_table = none ∧
        s'.metadata.extra = []) :=
  ⟨(router_unknown_bucket envProto wNb nbItem (by decide) (by decide)).1,
    (router_unknown_bucket envProto wNb nbItem (by decide)
      (by decide)).2.1 (by decide),
    (router_unknown_bucket envProto wProto protoItem (by decide)
      (by decide)).2.2 (by decide)⟩

/-! ### Claim C3: hash dedupe and error swallowing -/

/-- A route produced by `BUCKET_CONFIG` is one of the 20 configured
routes. -/
theorem BUCKET_CONFIG_route_mem (bucket : String) (route : BucketRoute)
    (h : BUCKET_CONFIG bucket = some (BucketLookup.route route)) :
    route ∈ bucketConfigList.map Prod.snd := by
  rw [BUCKET_CONFIG] at h
  rcases hf : bucketConfigList.find? (fun p => p.1 = bucket) with _ | pr
  · rw [hf] at h
    dsimp only at h
    split at h <;> simp at h
  · rw [hf] at h
    dsimp only at h
    have hpr : pr.2 = route := by
      have h2 := Option.some.inj h
      injection h2
    exact hpr ▸ List.mem_map_of_mem Prod.snd (List.mem_of_find?_eq_some hf)

/-- Every configured route's destination table has a payload handler. -/
theorem buildPayload_ok (route : BucketRoute)
    (item : StagingItem) (h : route ∈ bucketConfigList.map Prod.snd) :
    ∃ p, buildPayload route.table route.status item = Except.ok p := by
  simp only [bucketConfigList, List.map_cons, List.map_nil, List.mem_cons,
    List.not_mem_nil, or_false] at h
  rcases h with rfl | rfl | rfl | rfl | rfl | rfl | rfl | rfl | rfl | rfl |
    rfl | rfl | rfl | rfl | rfl | rfl | rfl | rfl | rfl | rfl <;>
    exact ⟨_, rfl⟩

/-- C3: for an item with a (truthy) hash routed to `route.table`, when
the dedupe query succeeds and some row in the 100-row scan window
carries `metadata.hash` equal to the item's hash, the item is marked
`duplicate` and no table changes; when the dedupe query errors, the
failure is swallowed (`checkDuplicate` reports not-a-duplicate with a
`null` error) and the insert proceeds: with a working insert the payload
row is appended and the item is marked `processed`. -/
theorem router_dedupe_behavior (env : RouterEnv) (w : World)
    (item : StagingItem) (route : BucketRoute) (h : String)
    (hconfig : BUCKET_CONFIG item.bucket = some (BucketLookup.route route))
    (hhash : item.hash = some h) (hne : h ≠ "")
    (hfind : w.staging.find? (fun s => s.id = item.id) = some item) :
    (env.dedupeErr item.id = false →
      ((getTable w route.table).take 100).any
        (fun row => row.metadata.hash = some h) = true →
      (processOne env w item).1.tables = w.tables ∧
      (processOne env w item).2 = StatKind.duplicate ∧
      ∃ s', (processOne env w item).1.staging.find?
          (fun s => s.id = item.id) = some s' ∧ s'.status = "duplicate") ∧
    (env.dedupeErr item.id = true → env.insertErr item.id = none →
      checkDuplicate none item.hash = ⟨false, none⟩ ∧
      ∃ payload, buildPayload route.table route.status item = Except.ok payload ∧
        (processOne env w item).1.staging.find? (fun s => s.id = item.id) =
          some (markStagingUpdate item.metadata "processed" none env.now item) ∧
        (processOne env w item).2 = StatKind.processed ∧
        getTable (processOne env w item).1 route.table =
          getTable w route.table ++ [payload]) := by
  constructor
  · intro hDE hany
    have hP : processOne env w item =
        (markStaging w item.id "duplicate" none env.now,
          StatKind.duplicate) := by
      rw [processOne, hconfig]
      unfold_let
      rw [hhash]
      dsimp only
      rw [if_pos (show decide (h ≠ "") = true by simp [hne])]
      rw [hDE]
      rw [if_neg (show ¬ (false = true) by simp)]
      rw [checkDuplicate]
      rw [if_neg hne]
      rw [hany]
      rfl
    rw [hP]
    exact ⟨rfl, rfl, _,
      markStaging_find_self w item.id "duplicate" none env.now item hfind,
      by simp [markStagingUpdate_status]⟩
  · intro hDE hIE
    obtain ⟨payload, hpay⟩ :=
      buildPayload_ok route item (BUCKET_CONFIG_route_mem item.bucket route hconfig)
    have hchk : checkDuplicate none item.hash = ⟨false, none⟩ := by
      rw [hhash, checkDuplicate]
      simp [hne]
    have hP : processOne env w item =
        (markStaging (putRow w route.table payload) item.id "processed"
          none env.now, StatKind.processed) := by
      rw [processOne, hconfig]
      unfold_let
      rw [hhash]
      dsimp only
      rw [if_pos (show decide (h ≠ "") = true by simp [hne])]
      rw [hDE]
      rw [if_pos (show true = true from rfl)]
      rw [checkDuplicate]
      rw [if_neg hne]
      rw [hpay, hIE]
      rfl
    refine ⟨hchk, payload, hpay, ?_, by rw [hP], ?_⟩
    · rw [hP]
      have hfind' : (putRow w route.table payload).staging.find?
          (fun s => s.id = item.id) = some item := by
        rw [putRow_staging]
        exact hfind
      exact markStaging_find_self _ item.id "processed" none env.now item hfind'
    · rw [hP]
      have : getTable (markStaging (putRow w route.table payload) item.id
          "processed" none env.now) route.table =
          getTable (putRow w route.table payload) route.table := by
        rw [getTable, getTable, markStaging_tables]
      rw [this, putRow_getTable]

/-- A staging item carrying hash `h1`, bucket `Todos`. -/
def dupItem : StagingItem :=
  ⟨5, "pending", "Todos", some "t", some "c", none, none, none, some "h1", 1,
    none, ⟨none, none, none, none, []⟩⟩

/-- A `dev_ai_todos` row already carrying `metadata.hash = h1`. -/
def dupRowTodo : Payload :=
  emptyPayload "unassigned" ⟨⟨none, none, none, none, []⟩, some "h1", "jason", 99⟩

/-- A store whose todos table already holds the hash-`h1` row. -/
def dupWorld : World :=
  ⟨[dupItem], [("dev_ai_todos", [dupRowTodo])]⟩

/-- Store-call outcomes with everything succeeding. -/
def envDupOk : RouterEnv := ⟨"T", fun _ => false, fun _ => none⟩

/-- Store-call outcomes where the dedupe `SELECT` always errors. -/
def envDupErr : RouterEnv := ⟨"T", fun _ => true, fun _ => none⟩

/-- The Todos route. -/
def routeTodos : BucketRoute := ⟨"dev_ai_todos", "unassigned"⟩

/-- C3, witness: with the matching-hash row present the item is marked
`duplicate` and nothing is inserted; with the dedupe query erroring the
failure is swallowed and the insert proceeds. -/
theorem router_dedupe_behavior_witness :
    ((envDupOk.dedupeErr dupItem.id = false →
      ((getTable dupWorld routeTodos.table).take 100).any
        (fun row => row.metadata.hash = some "h1") = true →
      (processOne envDupOk dupWorld dupItem).1.tables = dupWorld.tables ∧
      (processOne envDupOk dupWorld dupItem).2 = StatKind.duplicate ∧
      ∃ s', (processOne envDupOk dupWorld dupItem).1.staging.find?
          (fun s => s.id = dupItem.id) = some s' ∧ s'.status = "duplicate") ∧
    (envDupOk.dedupeErr dupItem.id = true → envDupOk.insertErr dupItem.id = none →
      checkDuplicate none dupItem.hash = ⟨false, none⟩ ∧
      ∃ payload, buildPayload routeTodos.table routeTodos.status dupItem =
          Except.ok payload ∧
        (processOne envDupOk dupWorld dupItem).1.staging.find?
          (fun s => s.id = dupItem.id) =
          some (markStagingUpdate dupItem.metadata "processed" none
            envDupOk.now dupItem) ∧
        (processOne envDupOk dupWorld dupItem).2 = StatKind.processed ∧
        getTable (processOne envDupOk dupWorld dupItem).1 routeTodos.table =
          getTable dupWorld routeTodos.table ++ [payload])) ∧
    ((envDupErr.dedupeErr dupItem.id = false →
      ((getTable dupWorld routeTodos.table).take 100).any
        (fun row => row.metadata.hash = some "h1") = true →
      (processOne envDupErr dupWorld dupItem).1.tables = dupWorld.tables ∧
      (processOne envDupErr dupWorld dupItem).2 = StatKind.duplicate ∧
      ∃ s', (processOne envDupErr dupWorld dupItem).1.staging.find?
          (fun s => s.id = dupItem.id) = some s' ∧ s'.status = "duplicate") ∧
    (envDupErr.dedupeErr dupItem.id = true → envDupErr.insertErr dupItem.id = none →
      checkDuplicate none dupItem.hash = ⟨false, none⟩ ∧
      ∃ payload, buildPayload routeTodos.table routeTodos.status dupItem =
          Except.ok payload ∧
        (processOne envDupErr dupWorld dupItem).1.staging.find?
          (fun s => s.id = dupItem.id) =
          some (markStagingUpdate dupItem.metadata "processed" none
            envDupErr.now dupItem) ∧
        (processOne envDupErr dupWorld dupItem).2 = StatKind.processed ∧
        getTable (processOne envDupErr dupWorld dupItem).1 routeTodos.table =
          getTable dupWorld routeTodos.table ++ [payload])) :=
  ⟨router_dedupe_behavior envDupOk dupWorld dupItem routeTodos "h1"
      (by decide) (by decide) (by decide) (by decide),
    router_dedupe_behavior envDupErr dupWorld dupItem routeTodos "h1"
      (by decide) (by decide) (by decide) (by decide)⟩

/-! ### Claim C6: `similarity` on empty strings -/

/-- C6: because of the JS falsy guard `if (!str1 || !str2) return 0`, the
code returns 0 whenever either argument is the empty string — including
`similarity("", "") = 0`, which contradicts the specified empty-vs-empty
value of 1 (the `maxLen === 0` branch returning 1 is unreachable). -/
theorem similarity_empty_behavior :
    similarity "" "" = 0 ∧ similarity "" "abc" = 0 ∧ similarity "abc" "" = 0 ∧
    ∀ s : String, similarity "" s = 0 ∧ similarity s "" = 0 := by
  refine ⟨by decide, by decide, by decide, ?_⟩
  intro s
  constructor <;> simp [similarity]

/-! ### Claim C2: pending-only selection, terminal statuses, idempotence -/

/-- Ordered insertion permutes consing. -/
theorem insertByCreated_perm (x : StagingItem) :
    ∀ l : List StagingItem, (insertByCreated x l).Perm (x :: l)
  | [] => List.Perm.refl _
  | y :: ys => by
    rw [insertByCreated]
    by_cases h : x.created_at ≤ y.created_at
    · rw [if_pos h]
    · rw [if_neg h]
      exact (List.Perm.cons y (insertByCreated_perm x ys)).trans
        (List.Perm.swap x y ys)

/-- The batch sort is a permutation of its input. -/
theorem sortByCreated_perm :
    ∀ l : List StagingItem, (sortByCreated l).Perm l
  | [] => List.Perm.refl _
  | x :: xs => by
    rw [sortByCreated]
    exact (insertByCreated_perm x (sortByCreated xs)).trans
      (List.Perm.cons x (sortByCreated_perm xs))

/-- Everything the batch query returns is a pending staging row. -/
theorem selectBatch_pending (w : World) (limit : Nat) :
    ∀ b ∈ selectBatch w limit, b ∈ w.staging ∧ b.status = "pending" := by
  intro b hb
  rw [selectBatch] at hb
  have h1 : b ∈ sortByCreated (w.staging.filter (fun s => s.status = "pending")) :=
    List.take_subset _ _ hb
  have h2 : b ∈ w.staging.filter (fun s => s.status = "pending") :=
    (sortByCreated_perm _).mem_iff.mp h1
  have h3 := List.mem_filter.mp h2
  exact ⟨h3.1, by simpa using h3.2⟩

/-- When the staging ids are duplicate-free, so are the batch's ids. -/
theorem selectBatch_ids_nodup (w : World) (limit : Nat)
    (hN : (w.staging.map StagingItem.id).Nodup) :
    ((selectBatch w limit).map StagingItem.id).Nodup := by
  have hf : ((w.staging.filter (fun s => s.status = "pending")).map
      StagingItem.id).Nodup :=
    List.Nodup.sublist (List.Sublist.map _ (List.filter_sublist _)) hN
  have hs : ((sortByCreated (w.staging.filter
      (fun s => s.status = "pending"))).map StagingItem.id).Nodup :=
    (List.Perm.nodup_iff (List.Perm.map _ (sortByCreated_perm _))).mpr hf
  exact List.Nodup.sublist (List.Sublist.map _ (List.take_sublist _ _)) hs

/-- When there are at most `limit` pending rows, the batch contains every
pending row. -/
theorem selectBatch_complete (w : World) (limit : Nat)
    (hle : (w.staging.filter (fun s => s.status = "pending")).length ≤ limit) :
    ∀ s ∈ w.staging.filter (fun s => s.status = "pending"),
      s ∈ selectBatch w limit := by
  intro s hs
  rw [selectBatch, List.take_of_length_le]
  · exact (sortByCreated_perm _).mem_iff.mpr hs
  · rw [(sortByCreated_perm _).length_eq]
    exact hle

/-- Under duplicate-free ids, `find?` by a member's id returns exactly
that member. -/
theorem find_self_of_nodup :
    ∀ l : List StagingItem, (l.map StagingItem.id).Nodup →
    ∀ s ∈ l, l.find? (fun x => x.id = s.id) = some s
  | [], _, s, hs => by simp at hs
  | x :: xs, hnd, s, hs => by
    rw [List.map_cons] at hnd
    obtain ⟨hx, hnd'⟩ := List.nodup_cons.mp hnd
    rcases List.mem_cons.mp hs with rfl | hmem
    · exact List.find?_cons_of_pos _ (by simp)
    · have hne : ¬ x.id = s.id := fun h =>
        hx (h ▸ List.mem_map_of_mem StagingItem.id hmem)
      rw [List.find?_cons_of_neg _ (by simpa using hne)]
      exact find_self_of_nodup xs hnd' s hmem

/-- An id present among a list's ids is found by `find?`. -/
theorem find_of_mem_ids :
    ∀ (l : List StagingItem) (i : Nat), i ∈ l.map StagingItem.id →
    ∃ s, l.find? (fun x => x.id = i) = some s
  | [], i, h => by simp at h
  | x :: xs, i, h => by
    by_cases hx : x.id = i
    · exact ⟨x, List.find?_cons_of_pos _ (by simpa using hx)⟩
    · rw [List.map_cons, List.mem_cons] at h
      rcases h with h | h
      · exact absurd h.symm hx
      · obtain ⟨s, hs⟩ := find_of_mem_ids xs i h
        exact ⟨s, by rw [List.find?_cons_of_neg _ (by simpa using hx)]; exact hs⟩

/-- `processOne` preserves the staging table's id sequence. -/
theorem processOne_staging_ids (env : RouterEnv) (w : World)
    (item : StagingItem) :
    (processOne env w item).1.staging.map StagingItem.id =
      w.staging.map StagingItem.id := by
  obtain ⟨w0, st, d, heq, hstag, _⟩ := processOne_shape env w item
  rw [heq, markStaging_ids, hstag]

/-- After `processOne`, the processed item's row carries one of the three
terminal statuses. -/
theorem processOne_find_self (env : RouterEnv) (w : World)
    (item : StagingItem) (s0 : StagingItem)
    (hfind : w.staging.find? (fun s => s.id = item.id) = some s0) :
    ∃ s', (processOne env w item).1.staging.find?
        (fun s => s.id = item.id) = some s' ∧
      (s'.status = "processed" ∨ s'.status = "duplicate" ∨
        s'.status = "error") := by
  obtain ⟨w0, st, d, heq, hstag, hst⟩ := processOne_shape env w item
  rw [heq]
  have hf0 : w0.staging.find? (fun s => s.id = item.id) = some s0 := by
    rw [hstag]; exact hfind
  refine ⟨markStagingUpdate s0.metadata st d env.now s0,
    markStaging_find_self w0 item.id st d env.now s0 hf0, ?_⟩
  rw [markStagingUpdate_status]
  exact hst

/-- `processOne` leaves every other id's staging row unchanged. -/
theorem processOne_find_other (env : RouterEnv) (w : World)
    (item : StagingItem) (j : Nat) (hne : j ≠ item.id) :
    (processOne env w item).1.staging.find? (fun s => s.id = j) =
      w.staging.find? (fun s => s.id = j) := by
  obtain ⟨w0, st, d, heq, hstag, _⟩ := processOne_shape env w item
  rw [heq, markStaging_find_other w0 item.id st d env.now j hne, hstag]

/-- The world component of a fold step is the world `processOne`
produces. -/
theorem routerStep_world (env : RouterEnv) (acc : World × RouterStats)
    (item : StagingItem) :
    (routerStep env acc item).1 = (processOne env acc.1 item).1 := by
  rcases h : processOne env acc.1 item with ⟨w', k⟩
  rw [routerStep, h]
  cases k <;> rfl

/-- The processing fold: ids are preserved, rows outside the batch are
untouched, and (for duplicate-free batch ids whose rows exist) every
batch row ends in a terminal status. -/
theorem routerLoop_spec (env : RouterEnv) :
    ∀ (batch : List StagingItem) (w : World) (stats : RouterStats),
    ((batch.map StagingItem.id).Nodup) →
    (∀ b ∈ batch, b.id ∈ w.staging.map StagingItem.id) →
    ((batch.foldl (routerStep env) (w, stats)).1.staging.map StagingItem.id =
      w.staging.map StagingItem.id) ∧
    (∀ j : Nat, j ∉ batch.map StagingItem.id →
      (batch.foldl (routerStep env) (w, stats)).1.staging.find?
        (fun s => s.id = j) = w.staging.find? (fun s => s.id = j)) ∧
    (∀ b ∈ batch, ∃ s',
      (batch.foldl (routerStep env) (w, stats)).1.staging.find?
        (fun s => s.id = b.id) = some s' ∧
      (s'.status = "processed" ∨ s'.status = "duplicate" ∨
        s'.status = "error"))
  | [], w, stats, _, _ => by simp
  | x :: xs, w, stats, hnd, hmem => by
    rw [List.foldl_cons]
    have hsw : (routerStep env (w, stats) x).1 = (processOne env w x).1 :=
      routerStep_world env (w, stats) x
    rw [List.map_cons] at hnd
    obtain ⟨hx_not, hnd'⟩ := List.nodup_cons.mp hnd
    have hmem' : ∀ b ∈ xs,
        b.id ∈ ((routerStep env (w, stats) x).1).staging.map StagingItem.id := by
      intro b hb
      rw [hsw, processOne_staging_ids]
      exact hmem b (List.mem_cons_of_mem x hb)
    obtain ⟨hids, hother, hterm⟩ :=
      routerLoop_spec env xs (routerStep env (w, stats) x).1
        (routerStep env (w, stats) x).2 hnd' hmem'
    refine ⟨?_, ?_, ?_⟩
    · exact hids.trans (by rw [hsw, processOne_staging_ids])
    · intro j hj
      rw [List.map_cons, List.mem_cons] at hj
      push_neg at hj
      exact (hother j hj.2).trans
        (by rw [hsw]; exact processOne_find_other env w x j hj.1)
    · intro b hb
      rcases List.mem_cons.mp hb with rfl | hbmem
      · obtain ⟨s0, hs0⟩ :=
          find_of_mem_ids w.staging b.id (hmem b (List.mem_cons_self b xs))
        obtain ⟨s', hfind', hstat⟩ := processOne_find_self env w b s0 hs0
        refine ⟨s', ?_, hstat⟩
        exact (hother b.id hx_not).trans (by rw [hsw]; exact hfind')
      · exact hterm b hbmem

/-- C2 (amended): the cycle selects only `pending` staging rows (at most
`limit`, default 50); under duplicate-free staging ids every selected row
ends in exactly one terminal status among `processed`, `duplicate` and
`error`, and unselected rows are untouched; and whenever the pending rows
fit in one batch, a second cycle over the resulting store is a complete
no-op (same store, zero counters), whatever its store outcomes — the
unconditional claim fails when the pending backlog exceeds the batch
limit. -/
theorem router_pending_terminal_idempotent (env : RouterEnv) (w : World)
    (limit : Nat) (hN : (w.staging.map StagingItem.id).Nodup) :
    (∀ b ∈ selectBatch w limit, b ∈ w.staging ∧ b.status = "pending") ∧
    (∀ b ∈ selectBatch w limit, ∃ s',
      (processStagingItems env w limit).1.staging.find?
        (fun s => s.id = b.id) = some s' ∧
      (s'.status = "processed" ∨ s'.status = "duplicate" ∨
        s'.status = "error")) ∧
    (∀ j : Nat, j ∉ (selectBatch w limit).map StagingItem.id →
      (processStagingItems env w limit).1.staging.find?
        (fun s => s.id = j) = w.staging.find? (fun s => s.id = j)) ∧
    ((w.staging.filter (fun s => s.status = "pending")).length ≤ limit →
      ∀ env' : RouterEnv,
        processStagingItems env' (processStagingItems env w limit).1 limit =
          ((processStagingItems env w limit).1, ⟨0, 0, 0⟩)) := by
  simp only [processStagingItems]
  have hbp := selectBatch_pending w limit
  have hbnd := selectBatch_ids_nodup w limit hN
  have hbmem : ∀ b ∈ selectBatch w limit,
      b.id ∈ w.staging.map StagingItem.id :=
    fun b hb => List.mem_map_of_mem StagingItem.id (hbp b hb).1
  obtain ⟨hids, hother, hterm⟩ :=
    routerLoop_spec env (selectBatch w limit) w ⟨0, 0, 0⟩ hbnd hbmem
  refine ⟨hbp, hterm, hother, ?_⟩
  intro hle env'
  set W' := ((selectBatch w limit).foldl (routerStep env) (w, ⟨0, 0, 0⟩)).1
    with hW'
  have hN' : (W'.staging.map StagingItem.id).Nodup := by
    rw [hids]; exact hN
  have hpend : W'.staging.filter (fun s => s.status = "pending") = [] := by
    rw [List.filter_eq_nil_iff]
    intro s hs
    have hfs := find_self_of_nodup W'.staging hN' s hs
    by_cases hin : s.id ∈ (selectBatch w limit).map StagingItem.id
    · obtain ⟨b, hbm, hbid⟩ := List.mem_map.mp hin
      obtain ⟨s', hfind', hstat⟩ := hterm b hbm
      rw [hbid, hfs] at hfind'
      have hss : s = s' := Option.some.inj hfind'
      rcases hstat with h | h | h <;> rw [← hss] at h <;> simp [h]
    · have hfother := hother s.id hin
      rw [hfs] at hfother
      have hsw2 : s ∈ w.staging := List.mem_of_find?_eq_some hfother.symm
      intro hp
      have hps : s.status = "pending" := by simpa using hp
      have hsf : s ∈ w.staging.filter (fun s => s.status = "pending") :=
        List.mem_filter.mpr ⟨hsw2, by simp [hps]⟩
      exact hin (List.mem_map_of_mem StagingItem.id
        (selectBatch_complete w limit hle s hsf))
  have hbatch2 : selectBatch W' limit = [] := by
    rw [selectBatch, hpend]; simp [sortByCreated]
  rw [hbatch2]
  rfl

/-- A pending `Todos` staging row (no content hash). -/
def mkTodo (i : Nat) : StagingItem :=
  ⟨i, "pending", "Todos", some "t", some "c", none, none, none, none, i,
    none, ⟨none, none, none, none, []⟩⟩

/-- A store with 51 pending `Todos` rows — one more than the batch
limit. -/
def w51 : World := ⟨(List.range 51).map mkTodo, [("dev_ai_todos", [])]⟩

/-- Store-call outcomes where every dedupe `SELECT` and `INSERT`
succeeds. -/
def env51 : RouterEnv := ⟨"T", fun _ => false, fun _ => none⟩

/-- A store with a single pending `Todos` row. -/
def wOne : World := ⟨[mkTodo 1], [("dev_ai_todos", [])]⟩

set_option maxRecDepth 100000 in
/-- C2, counterexample to the unconditional re-run claim: with 51 pending
rows and the source's batch limit of 50, the first cycle inserts 50 rows
but leaves one row pending, so the second cycle over the same staging set
performs one additional destination-table write (the todos table grows
from 50 to 51 rows and the second run counts one processed item). -/
theorem router_idempotent_refuted :
    (getTable (processStagingItems env51 w51 50).1 "dev_ai_todos").length
      = 50 ∧
    (getTable (processStagingItems env51
        (processStagingItems env51 w51 50).1 50).1 "dev_ai_todos").length
      = 51 ∧
    (processStagingItems env51
        (processStagingItems env51 w51 50).1 50).2.processed = 1 := by
  decide

/-- C2, witness: a store with one pending `Todos` row has duplicate-free
ids, and re-running the cycle after the first run returns the same store
with zero counters. -/
theorem router_pending_terminal_idempotent_witness :
    (wOne.staging.map StagingItem.id).Nodup ∧
    processStagingItems env51 (processStagingItems env51 wOne 50).1 50 =
      ((processStagingItems env51 wOne 50).1, ⟨0, 0, 0⟩) :=
  ⟨by decide,
    (router_pending_terminal_idempotent env51 wOne 50
      (by decide)).2.2.2 (by decide) env51⟩

/-! ### Claim C1: the approve-purge endpoint -/

/-- JS falsiness of an optional number (`!request_id`): absent or 0. -/
def jsFalsyNat : Option Nat → Bool
  | none => true
  | some n => n = 0

/-- JS falsiness of an optional string (`!dev_id`): absent or empty. -/
def jsFalsyStr : Option String → Bool
  | none => true
  | some s => s = ""

/-- A `dev_ai_purge_requests` row: the record ids and table name captured
at flag time plus the review audit fields. -/
structure PurgeRequest where
  id : Nat
  status : String
  table_name : String
  record_ids : List Nat
  reviewed_by : Option String
  reviewed_at : Option String
  executed_at : Option String
  deriving DecidableEq, Repr

/-- The store as the endpoint sees it: the purge-request table and the
destination tables (rows carried by id). -/
structure PurgeState where
  requests : List PurgeRequest
  tables : List (String × List Nat)
  deriving DecidableEq, Repr

/-- The HTTP outcome (status code and error payload). -/
structure ApproveResp where
  code : Nat
  error : Option String
  deriving DecidableEq, Repr

/-- The reject-branch row update. -/
def rejectUpd (dev_id : Option String) (now : String) (r : PurgeRequest) :
    PurgeRequest :=
  { r with
    status := "rejected",
    reviewed_by := dev_id,
    reviewed_at := some now }

/-- The approve-branch row update. -/
def approveUpd (dev_id : Option String) (now : String) (r : PurgeRequest) :
    PurgeRequest :=
  { r with
    status := "approved",
    reviewed_by := dev_id,
    reviewed_at := some now,
    executed_at := some now }

/-- `POST /api/storage/approve-purge`: falsy `request_id` → 400, falsy
`dev_id` → 400, fetch by id (`.single()`) → 404 when absent, non-pending
→ 400 `Request already <status>`; reject updates the request to
`rejected`; approve deletes the captured `record_ids` from the captured
`table_name` and updates the request to `approved` with reviewer and
timestamps (store failures, the catch → 500 path, are outside this
model). -/
def approvePurge (st : PurgeState) (request_id : Option Nat)
    (dev_id : Option String) (approve : Bool) (now : String) :
    ApproveResp × PurgeState :=
  if jsFalsyNat request_id then
    (⟨400, some "request_id is required"⟩, st)
  else if jsFalsyStr dev_id then
    (⟨400, some "dev_id is required - must know who is approving"⟩, st)
  else
    match st.requests.find? (fun r => some r.id = request_id) with
    | none => (⟨404, some "Purge request not found"⟩, st)
    | some request =>
      if request.status ≠ "pending" then
        (⟨400, some ("Request already " ++ request.status)⟩, st)
      else if approve = false then
        (⟨200, none⟩,
          ⟨st.requests.map (fun r => if some r.id = request_id then
              rejectUpd dev_id now r else r),
            st.tables⟩)
      else
        (⟨200, none⟩,
          ⟨st.requests.map (fun r => if some r.id = request_id then
              approveUpd dev_id now r else r),
            st.tables.map (fun p => if p.1 = request.table_name then
              (p.1, p.2.filter (fun i => ¬ i ∈ request.record_ids)) else p)⟩)

/-- Updating exactly the elements a predicate selects rewrites what
`find?` returns for that predicate (the update must preserve the
predicate). -/
theorem find_map_update_pred {α : Type} (p : α → Prop) [DecidablePred p]
    (u : α → α) (hu : ∀ a, p (u a) ↔ p a) :
    ∀ (l : List α) (x : α),
    l.find? (fun a => p a) = some x →
    (l.map (fun a => if p a then u a else a)).find?
      (fun a => p a) = some (u x)
  | [], x, h => by simp at h
  | y :: ys, x, h => by
    rw [List.map_cons]
    by_cases hy : p y
    · rw [List.find?_cons_of_pos _ (by simpa using hy)] at h
      have hyx : y = x := by simpa using h
      subst hyx
      rw [if_pos hy]
      exact List.find?_cons_of_pos _ (by simpa using (hu y).mpr hy)
    · rw [List.find?_cons_of_neg _ (by simpa using hy)] at h
      rw [if_neg hy, List.find?_cons_of_neg _ (by simpa using hy)]
      exact find_map_update_pred p u hu ys x h

/-- A call naming a non-pending request is rejected with the
already-terminal message and changes nothing. -/
theorem approvePurge_nonpending (st : PurgeState) (rid : Nat)
    (d n : String) (ap : Bool) (req : PurgeRequest)
    (hrid : rid ≠ 0) (hd : d ≠ "")
    (hfind : st.requests.find? (fun r => some r.id = some rid) = some req)
    (hst : req.status ≠ "pending") :
    approvePurge st (some rid) (some d) ap n =
      (⟨400, some ("Request already " ++ req.status)⟩, st) := by
  rw [approvePurge,
    if_neg (show ¬ jsFalsyNat (some rid) = true by simp [jsFalsyNat, hrid]),
    if_neg (show ¬ jsFalsyStr (some d) = true by simp [jsFalsyStr, hd]),
    hfind]
  dsimp only
  rw [if_pos hst]

/-- C1: on a pending purge request (under `request_id` and `dev_id`
passing the falsy guards): a falsy `dev_id` fails with 400 and leaves the
whole store — rows and the still-pending request — untouched; a valid
approval succeeds, deletes from the captured `table_name` exactly the
rows whose ids are in the captured `record_ids` (other tables and rows
untouched — no re-query at approval time), and moves the request to
`approved` with reviewer identity and both timestamps; any second call on
the same request fails with `Request already approved` and changes
nothing. -/
theorem approve_purge_spec (st : PurgeState) (rid : Nat) (dev now : String)
    (req : PurgeRequest)
    (hrid : rid ≠ 0) (hdev : dev ≠ "")
    (hfind : st.requests.find? (fun r => some r.id = some rid) = some req)
    (hpend : req.status = "pending") :
    (∀ (d : Option String), jsFalsyStr d = true → ∀ (ap : Bool) (n : String),
      approvePurge st (some rid) d ap n =
        (⟨400, some "dev_id is required - must know who is approving"⟩,
          st)) ∧
    (approvePurge st (some rid) (some dev) true now).1 = ⟨200, none⟩ ∧
    (∀ tname rows, (tname, rows) ∈ st.tables → ∃ rows',
      (tname, rows') ∈
        (approvePurge st (some rid) (some dev) true now).2.tables ∧
      ∀ j, j ∈ rows' ↔
        (j ∈ rows ∧ (tname = req.table_name → j ∉ req.record_ids))) ∧
    ((approvePurge st (some rid) (some dev) true now).2.requests.find?
        (fun r => some r.id = some rid) =
      some (approveUpd (some dev) now req)) ∧
    (∀ (dev2 : String), dev2 ≠ "" → ∀ (ap2 : Bool) (n2 : String),
      approvePurge (approvePurge st (some rid) (some dev) true now).2
          (some rid) (some dev2) ap2 n2 =
        (⟨400, some "Request already approved"⟩,
          (approvePurge st (some rid) (some dev) true now).2)) := by
  have hP : approvePurge st (some rid) (some dev) true now =
      (⟨200, none⟩,
        ⟨st.requests.map (fun r => if some r.id = some rid then
            approveUpd (some dev) now r else r),
          st.tables.map (fun p => if p.1 = req.table_name then
            (p.1, p.2.filter (fun i => ¬ i ∈ req.record_ids)) else p)⟩) := by
    rw [approvePurge,
      if_neg (show ¬ jsFalsyNat (some rid) = true by simp [jsFalsyNat, hrid]),
      if_neg (show ¬ jsFalsyStr (some dev) = true by simp [jsFalsyStr, hdev]),
      hfind]
    dsimp only
    rw [if_neg (show ¬ req.status ≠ "pending" by simp [hpend]),
      if_neg (show ¬ (true = false) by simp)]
  have hreq : (approvePurge st (some rid) (some dev) true now).2.requests.find?
      (fun r => some r.id = some rid) = some (approveUpd (some dev) now req) := by
    rw [hP]
    exact find_map_update_pred (fun r => some r.id = some rid)
      (approveUpd (some dev) now) (fun a => by simp [approveUpd])
      st.requests req hfind
  refine ⟨?_, ?_, ?_, hreq, ?_⟩
  · intro d hd ap n
    rw [approvePurge,
      if_neg (show ¬ jsFalsyNat (some rid) = true by simp [jsFalsyNat, hrid]),
      if_pos hd]
  · rw [hP]
  · intro tname rows hmem
    rw [hP]
    by_cases ht : tname = req.table_name
    · refine ⟨rows.filter (fun i => ¬ i ∈ req.record_ids), ?_, ?_⟩
      · have h := List.mem_map_of_mem
          (fun p : String × List Nat => if p.1 = req.table_name then
            (p.1, p.2.filter (fun i => ¬ i ∈ req.record_ids)) else p) hmem
        simpa [ht] using h
      · intro j
        simp [List.mem_filter, ht]
    · refine ⟨rows, ?_, ?_⟩
      · have h := List.mem_map_of_mem
          (fun p : String × List Nat => if p.1 = req.table_name then
            (p.1, p.2.filter (fun i => ¬ i ∈ req.record_ids)) else p) hmem
        simpa [ht] using h
      · intro j
        simp [ht]
  · intro dev2 hd2 ap2 n2
    have hc := approvePurge_nonpending
      ((approvePurge st (some rid) (some dev) true now).2) rid dev2 n2 ap2
      (approveUpd (some dev) now req) hrid hd2 hreq (by simp [approveUpd])
    exact hc.trans (by rfl)

/-- A pending purge request flagging rows 2 and 3 of table `tbl`. -/
def pReq : PurgeRequest := ⟨1, "pending", "tbl", [2, 3], none, none, none⟩

/-- A store holding that request, `tbl` with rows 1–4, and a second
table. -/
def pState : PurgeState :=
  ⟨[pReq], [("tbl", [1, 2, 3, 4]), ("other", [2, 3])]⟩

/-- C1, witness: on the concrete store, an empty `dev_id` fails with 400
and no change; a valid approval deletes exactly rows 2 and 3 of `tbl`;
and the follow-up approval fails with `Request already approved` and no
change. -/
theorem approve_purge_spec_witness :
    approvePurge pState (some 1) (some "") true "T" =
      (⟨400, some "dev_id is required - must know who is approving"⟩,
        pState) ∧
    (approvePurge pState (some 1) (some "dev") true "T").2.tables =
      [("tbl", [1, 4]), ("other", [2, 3])] ∧
    approvePurge (approvePurge pState (some 1) (some "dev") true "T").2
        (some 1) (some "dev") true "U" =
      (⟨400, some "Request already approved"⟩,
        (approvePurge pState (some 1) (some "dev") true "T").2) :=
  ⟨(approve_purge_spec pState 1 "dev" "T" pReq (by decide) (by decide)
      (by decide) rfl).1 (some "") (by decide) true "T",
    by decide,
    (approve_purge_spec pState 1 "dev" "T" pReq (by decide) (by decide)
      (by decide) rfl).2.2.2.2 "dev" (by decide) true "U"⟩

end Susan
